import Mathlib

/-
Formal model of the mbdr binary reaction-data decoder and vesicle-release
engine (github.com/haskelladdict/mbdr), shallowly embedded from the Go
sources.

Conventions used throughout:
* Byte buffers and streams are `List Nat`, each entry one byte value.
* Go `uint64`/`uint32`/`uint16` values are `Nat`; where Go's modular
  arithmetic can differ from `Nat` arithmetic (conversions, wrap-around
  subtraction) the reduction modulo 2^w is written out explicitly.
* IEEE-754 doubles stored in the payload are modelled by the 64-bit
  little-endian word holding their bit pattern; `math.Float64frombits` is a
  bijection between these words and doubles, so equalities of decoded
  doubles and equalities of the words coincide.  Where the release engine
  interprets column values numerically, the theorems instantiate archives
  whose columns are API-1 integer columns, for which the numeric value and
  the modelled word agree exactly.
* Reading past the end of a buffer, which panics in Go, yields byte 0 here;
  every theorem below either stays in range or is insensitive to the choice.
-/

namespace Mbdr

/-- Little-endian value of a byte list: the first byte is least significant. -/
def leWord (bs : List Nat) : Nat := bs.foldr (fun b acc => b + 256 * acc) 0

/-- The 64-bit little-endian word starting at byte offset `loc`
(`util.ReadBuf.Float64` / `float64NoSlice` applied to `buf[loc:]`,
keeping the bit pattern). -/
def f64At (buf : List Nat) (loc : Nat) : Nat := leWord ((buf.drop loc).take 8)

/-- The 32-bit little-endian value starting at byte offset `loc`
(`util.ReadBuf.Uint32` applied to `buf[loc:]`). -/
def u32At (buf : List Nat) (loc : Nat) : Nat := leWord ((buf.drop loc).take 4)

/-- Modulus of Go `uint64` arithmetic. -/
def U64 : Nat := 2 ^ 64

/-- Exact value of a finite IEEE-754 double, as an explicit fraction
`num / den` with `den > 0` for every value built in this development.
Fractions are not reduced: reduction never changes the represented value,
and keeping the representation free of `gcd` lets every concrete run
evaluate by `decide`.  The float comparisons the code performs (`<`,
`>=`, `== 0`) compare the represented real values exactly, as IEEE
comparisons do; float multiplication and division, which round in Go,
occur only in the event-time and pulse-id computations, where every
concrete value below is exact. -/
structure Q where
  num : Int
  den : Nat
deriving Repr, DecidableEq, Inhabited

/-- The double 0.0. -/
def Q0 : Q := ⟨0, 1⟩

/-- Exact conversion of a non-negative integer. -/
def QofNat (n : Nat) : Q := ⟨n, 1⟩

/-- Exact product. -/
def Qmul (a b : Q) : Q := ⟨a.num * b.num, a.den * b.den⟩

/-- Exact difference. -/
def Qsub (a b : Q) : Q := ⟨a.num * b.den - b.num * a.den, a.den * b.den⟩

/-- `a < b` on the represented values (denominators positive). -/
def Qlt (a b : Q) : Prop := a.num * b.den < b.num * a.den

instance (a b : Q) : Decidable (Qlt a b) :=
  inferInstanceAs (Decidable (a.num * b.den < b.num * a.den))

/-- `a <= b` on the represented values (denominators positive). -/
def Qle (a b : Q) : Prop := a.num * b.den ≤ b.num * a.den

instance (a b : Q) : Decidable (Qle a b) :=
  inferInstanceAs (Decidable (a.num * b.den ≤ b.num * a.den))

/-- `a == 0` on the represented values. -/
def Qisz (a : Q) : Prop := a.num = 0

instance (a : Q) : Decidable (Qisz a) := inferInstanceAs (Decidable (a.num = 0))

/-- Exact quotient (used only with a non-zero divisor). -/
def Qdiv (a b : Q) : Q :=
  if 0 ≤ b.num then ⟨a.num * b.den, a.den * b.num.toNat⟩
  else ⟨-(a.num * b.den), a.den * (-b.num).toNat⟩

/-- `math.Floor` composed with Go's `int` conversion, exact on the
fractions here (denominator positive). -/
def Qfloor (a : Q) : Int := Int.fdiv a.num a.den

/-- Go `uint64` subtraction `a - b`, with wrap-around. -/
def usub64 (a b : Nat) : Nat := (a % U64 + (U64 - b % U64)) % U64

/-- The two recognized format tags (`libmbd.API1` / `libmbd.API2`). -/
def API1 : String := "MCELL_BINARY_API_1"

/-- See `API1`. -/
def API2 : String := "MCELL_BINARY_API_2"

/-- `libmbd.BlockData` (API version 2 block directory entry). -/
structure BlockData where
  name : String
  numCols : Nat
  dataTypes : List Nat
  offset : Nat
deriving Repr, DecidableEq, Inhabited

/-- `libmbd.BlockEntry` (API version 1 block directory entry).  Go's field
`End` is called `stop` here (`end` is reserved in Lean). -/
structure BlockEntry where
  type : Nat
  start : Nat
  stop : Nat
deriving Repr, DecidableEq, Inhabited

/-- `libmbd.MCellData` (src/unnamed/part_010), the decoded archive.  The
API-1 and API-2 specific fields are flattened into one structure exactly as
in the Go embedding of `API1Data`/`API2Data`. -/
structure MCellData where
  buffer : List Nat
  outputListType : Nat
  blockSize : Nat
  stepSize : Q
  timeList : List Q
  numBlocks : Nat
  blockNames : List String
  blockNameMap : List (String × Nat)
  api : String
  offset : Nat
  blockEntries : List BlockEntry
  outputBufSize : Nat
  totalNumCols : Nat
  blockInfo : List BlockData
deriving Repr, DecidableEq, Inhabited

/-- `libmbd.CountData`: the resolved columns of one block.  Column entries
are the 64-bit words read from the payload (API 2, and API-1 double blocks)
or the `uint32` values read (API-1 integer blocks). -/
structure CountData where
  col : List (List Nat)
  dataTypes : List Nat
deriving Repr, DecidableEq, Inhabited

/-- One row of `blockDataAPI2`'s inner loop: `nCols` consecutive 8-byte
reads starting at `loc` (Go advances `loc` by `util.LenFloat64` per column
and appends value `i` to column `i`). -/
def readRow (buf : List Nat) (loc nCols : Nat) : List Nat :=
  (List.range nCols).map fun i => f64At buf (loc + 8 * i)

/-- The stream-forwarding test at the top of `blockDataAPI2`'s row loop
(the Go `if row >= stream*d.OutputBufSize` block): returns the `(stream,
loc)` pair in effect when the row is read. -/
def bda2Step (blockSize oBS totalCols off : Nat) (row stream loc : Nat) : Nat × Nat :=
  if stream * oBS ≤ row then
    (stream + 1,
     stream * oBS * totalCols * 8 +
       (if blockSize - row < oBS then blockSize - row else oBS) * off * 8)
  else (stream, loc)

/-- The row loop of `blockDataAPI2` (src/unnamed/part_010 lines 242-278),
collecting the rows it reads in order.  State `(row, stream, loc)` mirrors
the Go local variables.  The loop runs while `row < blockSize`, advancing
`row` by one each iteration; `fuel` is initialized to `blockSize`, which
the run never exhausts, and makes the recursion structural. -/
def bda2Rows (buf : List Nat) (blockSize oBS totalCols off nCols : Nat) :
    Nat → Nat → Nat → Nat → List (List Nat)
  | 0, _, _, _ => []
  | fuel + 1, row, stream, loc =>
    if row < blockSize then
      let p := bda2Step blockSize oBS totalCols off row stream loc
      readRow buf p.2 nCols ::
        bda2Rows buf blockSize oBS totalCols off nCols fuel (row + 1) p.1 (p.2 + 8 * nCols)
    else []

/-- `MCellData.blockDataAPI2` (src/unnamed/part_010 lines 230-281).  The Go
code appends, for each row, the `i`-th value read to column `i`; collecting
rows first and transposing is the same assignment since every row has
exactly `entry.numCols` entries. -/
def blockDataAPI2 (d : MCellData) (id : Nat) : Except String CountData :=
  let entry := d.blockInfo.getD id default
  let loc0 :=
    if d.blockSize < d.outputBufSize then d.blockSize * 8 * entry.offset
    else d.outputBufSize * 8 * entry.offset
  let rows := bda2Rows d.buffer d.blockSize d.outputBufSize d.totalNumCols
    entry.offset entry.numCols d.blockSize 0 1 loc0
  Except.ok
    ⟨(List.range entry.numCols).map fun i => rows.map fun r => r.getD i 0,
     (List.range entry.numCols).map fun i => entry.dataTypes.getD i 0⟩

/-- The item loop of `blockDataAPI1`: reads `n` items of width `width`
starting at `loc`, returning the values and the final `loc`. -/
def bda1Items (buf : List Nat) (readAt : List Nat → Nat → Nat) (width : Nat) :
    Nat → Nat → List Nat × Nat
  | loc, 0 => ([], loc)
  | loc, n + 1 =>
    let v := readAt buf loc
    let r := bda1Items buf readAt width (loc + width) n
    (v :: r.1, r.2)

/-- `MCellData.blockDataAPI1` (src/unnamed/part_010 lines 188-228).  A
single column is decoded as `blockSize` `uint32`s (kind 0) or doubles
(kind 1), followed by the end-of-block sanity check; any other kind tag
falls through the `switch` and returns the still-empty column with no
error and no sanity check. -/
def blockDataAPI1 (d : MCellData) (id : Nat) : Except String CountData :=
  let entry := d.blockEntries.getD id default
  let loc0 := usub64 entry.start d.offset
  if entry.type = 0 then
    let r := bda1Items d.buffer u32At 4 loc0 d.blockSize
    if r.2 = usub64 entry.stop d.offset then Except.ok ⟨[r.1], [entry.type]⟩
    else Except.error "did not properly reach end of data block"
  else if entry.type = 1 then
    let r := bda1Items d.buffer f64At 8 loc0 d.blockSize
    if r.2 = usub64 entry.stop d.offset then Except.ok ⟨[r.1], [entry.type]⟩
    else Except.error "did not properly reach end of data block"
  else Except.ok ⟨[[]], [entry.type]⟩

/-- `MCellData.BlockDataByID` (src/unnamed/part_010 lines 169-186); the id
guard, then the API dispatch.  `id < 0` is impossible for `Nat`/`uint64`. -/
def BlockDataByID (d : MCellData) (id : Nat) : Except String CountData :=
  if id < d.numBlocks then
    if d.api = API1 then blockDataAPI1 d id
    else if d.api = API2 then blockDataAPI2 d id
    else Except.error ("unknown API type " ++ d.api ++ " in BlockDataByID")
  else Except.error "supplied data ID is out of range"

/-- Lookup in the `BlockNameMap`, modelled as an association list. -/
def lookupName (m : List (String × Nat)) (name : String) : Option Nat :=
  (m.find? fun p => p.1 = name).map (·.2)

/-- `MCellData.BlockDataByName` (src/unnamed/part_010 lines 157-164). -/
def BlockDataByName (d : MCellData) (name : String) : Except String CountData :=
  match lookupName d.blockNameMap name with
  | none => Except.error ("dataset " ++ name ++ " not found")
  | some id => BlockDataByID d id

/-- Number of iteration rows held by stream chunk `k`: `oBS` for every
whole chunk, the remainder for the final partial chunk. -/
def localCnt (blockSize oBS k : Nat) : Nat :=
  if blockSize - k * oBS < oBS then blockSize - k * oBS else oBS

/-- Byte offset at which the requested block's data begins inside stream
chunk `k`: the chunk base plus the skip over the block's column offset,
scaled by the chunk's own row count. -/
def chunkStart (blockSize oBS totalCols off k : Nat) : Nat :=
  k * oBS * totalCols * 8 + localCnt blockSize oBS k * off * 8

/-- Byte offset at which `blockDataAPI2` reads the first column of
iteration row `r`. -/
def rowLoc (blockSize oBS totalCols off nCols r : Nat) : Nat :=
  chunkStart blockSize oBS totalCols off (r / oBS) + r % oBS * nCols * 8

/-- Closed form of the row list: rows `r, r+1, ..., r+n-1` read at their
`rowLoc` offsets. -/
def rowsFrom (buf : List Nat) (blockSize oBS totalCols off nCols : Nat) :
    Nat → Nat → List (List Nat)
  | _, 0 => []
  | r, n + 1 =>
    readRow buf (rowLoc blockSize oBS totalCols off nCols r) nCols ::
      rowsFrom buf blockSize oBS totalCols off nCols (r + 1) n

lemma bda2Step_next (blockSize oBS totalCols off nCols : Nat) (hoBS : 0 < oBS)
    (row : Nat) :
    bda2Step blockSize oBS totalCols off (row + 1) (row / oBS + 1)
      (rowLoc blockSize oBS totalCols off nCols row + 8 * nCols)
    = ((row + 1) / oBS + 1, rowLoc blockSize oBS totalCols off nCols (row + 1)) := by
  have hm : row % oBS < oBS := Nat.mod_lt _ hoBS
  have hdm : oBS * (row / oBS) + row % oBS = row := Nat.div_add_mod row oBS
  by_cases hcase : row % oBS + 1 = oBS
  · have hrow1 : row + 1 = oBS * (row / oBS + 1) := by
      rw [Nat.mul_add, Nat.mul_one]; omega
    have hdiv : (row + 1) / oBS = row / oBS + 1 := by
      rw [hrow1, Nat.mul_div_cancel_left _ hoBS]
    have hmod : (row + 1) % oBS = 0 := by
      rw [hrow1, Nat.mul_mod_right]
    have hcond : (row / oBS + 1) * oBS ≤ row + 1 := by
      rw [hrow1, Nat.mul_comm]
    have hsub : blockSize - (row + 1) = blockSize - (row / oBS + 1) * oBS := by
      rw [hrow1, Nat.mul_comm]
    rw [bda2Step, if_pos hcond, rowLoc, hdiv, hmod]
    simp only [chunkStart, localCnt]
    rw [hsub]
    ring_nf
  · have hlt : row % oBS + 1 < oBS := by omega
    have hrow1 : row + 1 = oBS * (row / oBS) + (row % oBS + 1) := by omega
    have hdiv : (row + 1) / oBS = row / oBS := by
      rw [hrow1, Nat.mul_add_div hoBS, Nat.div_eq_of_lt hlt, Nat.add_zero]
    have hmod : (row + 1) % oBS = row % oBS + 1 := by
      rw [hrow1, Nat.mul_add_mod, Nat.mod_eq_of_lt hlt]
    have hcond : ¬ (row / oBS + 1) * oBS ≤ row + 1 := by
      rw [Nat.add_mul, Nat.one_mul]
      have := Nat.mul_comm oBS (row / oBS)
      omega
    rw [bda2Step, if_neg hcond, rowLoc, rowLoc, hdiv, hmod]
    ring_nf

lemma bda2Rows_eq_rowsFrom (buf : List Nat) (blockSize oBS totalCols off nCols : Nat)
    (hoBS : 0 < oBS) :
    ∀ fuel row stream loc, blockSize ≤ row + fuel →
      bda2Step blockSize oBS totalCols off row stream loc
        = (row / oBS + 1, rowLoc blockSize oBS totalCols off nCols row) →
      bda2Rows buf blockSize oBS totalCols off nCols fuel row stream loc
        = rowsFrom buf blockSize oBS totalCols off nCols row (blockSize - row) := by
  intro fuel
  induction fuel with
  | zero =>
    intro row stream loc hle _
    have h0 : blockSize - row = 0 := by omega
    rw [h0, bda2Rows, rowsFrom]
  | succ n ih =>
    intro row stream loc hle hstep
    by_cases hrow : row < blockSize
    · have hsub : blockSize - row = (blockSize - (row + 1)) + 1 := by omega
      rw [bda2Rows, if_pos hrow]
      simp only [hstep]
      rw [hsub, rowsFrom]
      refine congrArg _ ?_
      exact ih (row + 1) (row / oBS + 1)
        (rowLoc blockSize oBS totalCols off nCols row + 8 * nCols) (by omega)
        (bda2Step_next blockSize oBS totalCols off nCols hoBS row)
    · have h0 : blockSize - row = 0 := by omega
      rw [bda2Rows, if_neg hrow, h0, rowsFrom]

lemma rowsFrom_length (buf : List Nat) (blockSize oBS totalCols off nCols : Nat) :
    ∀ n r, (rowsFrom buf blockSize oBS totalCols off nCols r n).length = n := by
  intro n
  induction n with
  | zero => intro r; rw [rowsFrom]; rfl
  | succ k ih => intro r; rw [rowsFrom]; simpa using ih (r + 1)

lemma rowsFrom_getD (buf : List Nat) (blockSize oBS totalCols off nCols : Nat) :
    ∀ n r k, k < n →
      (rowsFrom buf blockSize oBS totalCols off nCols r n).getD k []
        = readRow buf (rowLoc blockSize oBS totalCols off nCols (r + k)) nCols := by
  intro n
  induction n with
  | zero => intro r k hk; omega
  | succ m ih =>
    intro r k hk
    match k with
    | 0 => rw [rowsFrom]; rfl
    | j + 1 =>
      rw [rowsFrom]
      have := ih (r + 1) j (by omega)
      simpa [Nat.add_comm, Nat.add_assoc, Nat.add_left_comm] using this

lemma readRow_getD (buf : List Nat) (loc nCols c : Nat) (hc : c < nCols) :
    (readRow buf loc nCols).getD c 0 = f64At buf (loc + 8 * c) := by
  rw [readRow]
  rw [List.getD_eq_getElem _ _ (by simpa using hc)]
  simp

lemma bda2Step_init (blockSize oBS totalCols off nCols loc0 : Nat) (hoBS : 0 < oBS)
    (hloc : loc0 = if blockSize < oBS then blockSize * 8 * off else oBS * 8 * off) :
    bda2Step blockSize oBS totalCols off 0 1 loc0
      = (0 / oBS + 1, rowLoc blockSize oBS totalCols off nCols 0) := by
  have hcond : ¬ 1 * oBS ≤ 0 := by omega
  rw [bda2Step, if_neg hcond, hloc, rowLoc, Nat.zero_div, Nat.zero_mod, chunkStart, localCnt]
  by_cases h : blockSize < oBS <;> simp only [h, if_true, if_false, Nat.sub_zero,
    Nat.zero_mul, Nat.mul_zero, Nat.zero_add, Nat.add_zero, ite_true, ite_false] <;> ring_nf

lemma blockDataAPI2_eq (d : MCellData) (id : Nat) (hoBS : 0 < d.outputBufSize) :
    blockDataAPI2 d id = Except.ok
      ⟨(List.range (d.blockInfo.getD id default).numCols).map fun i =>
          (rowsFrom d.buffer d.blockSize d.outputBufSize d.totalNumCols
            (d.blockInfo.getD id default).offset (d.blockInfo.getD id default).numCols
            0 d.blockSize).map fun q => q.getD i 0,
        (List.range (d.blockInfo.getD id default).numCols).map fun i =>
          (d.blockInfo.getD id default).dataTypes.getD i 0⟩ := by
  have hrows :=
    bda2Rows_eq_rowsFrom d.buffer d.blockSize d.outputBufSize d.totalNumCols
      (d.blockInfo.getD id default).offset (d.blockInfo.getD id default).numCols hoBS
      d.blockSize 0 1
      (if d.blockSize < d.outputBufSize then d.blockSize * 8 * (d.blockInfo.getD id default).offset
       else d.outputBufSize * 8 * (d.blockInfo.getD id default).offset)
      (by omega)
      (bda2Step_init _ _ _ _ _ _ hoBS rfl)
  rw [Nat.sub_zero] at hrows
  simp only [blockDataAPI2]
  rw [hrows]

/-- Byte offset at which `blockDataAPI2` actually reads iteration row `r`,
block-local column `c`: rows are laid out consecutively (row-major) inside
the block's stripe of each stream chunk. -/
def resolvedLoc (blockSize oBS totalCols off nCols r c : Nat) : Nat :=
  chunkStart blockSize oBS totalCols off (r / oBS) + (r % oBS * nCols + c) * 8

/-- Modelled from the spec: the byte-offset formula the specification
assigns to iteration row `r`, block-local column `c` of a chunked-variant
block — `chunkBase(chunkIndex) + localChunkRowCount * (block.offset + c) * 8
+ localRow * 8`, i.e. the block's columns stored column-major inside the
chunk.  Compared below against what the code computes. -/
def claimLoc (blockSize oBS totalCols off r c : Nat) : Nat :=
  r / oBS * oBS * totalCols * 8 + localCnt blockSize oBS (r / oBS) * (off + c) * 8
    + r % oBS * 8

/-- C1 (amended): for every decoded chunked-variant archive with a positive
stream-chunk stride, `blockDataAPI2` (the API-sensitive body of
`BlockDataByID`) returns one vector per column, each of length
`iterationsPerBlock`, and the value at iteration row `r`, block-local
column `c` is the little-endian 64-bit word stored at byte offset
`chunkBase(chunkIndex(r)) + localChunkRowCount * block.offset * 8 +
(localRow(r) * numCols + c) * 8`, where `chunkBase` advances by
`outputBufSize * totalColumnCount * 8` per whole chunk and
`localChunkRowCount` is `outputBufSize` except for the final chunk, which
holds `iterationsPerBlock mod outputBufSize` rows (or `outputBufSize` if
that remainder is zero).  The block's columns are interleaved row-major
within its stripe of each chunk, not column-major as the claim's formula
`localChunkRowCount * (block.offset + c) * 8 + localRow * 8` states; the
two coincide exactly when the block has a single column. -/
theorem c1_blockDataAPI2_layout (d : MCellData) (id : Nat) (hoBS : 0 < d.outputBufSize)
    (r c : Nat) (hr : r < d.blockSize)
    (hc : c < (d.blockInfo.getD id default).numCols) :
    ∃ cd, blockDataAPI2 d id = Except.ok cd ∧
      cd.col.length = (d.blockInfo.getD id default).numCols ∧
      (∀ v ∈ cd.col, v.length = d.blockSize) ∧
      (cd.col.getD c []).getD r 0
        = f64At d.buffer (resolvedLoc d.blockSize d.outputBufSize d.totalNumCols
            (d.blockInfo.getD id default).offset (d.blockInfo.getD id default).numCols r c) := by
  refine ⟨_, blockDataAPI2_eq d id hoBS, by simp, ?_, ?_⟩
  · intro v hv
    simp only [List.mem_map] at hv
    obtain ⟨i, _, rfl⟩ := hv
    simp [rowsFrom_length]
  · have hcol :
        (List.map (fun i =>
            List.map (fun q => q.getD i 0)
              (rowsFrom d.buffer d.blockSize d.outputBufSize d.totalNumCols
                (d.blockInfo.getD id default).offset (d.blockInfo.getD id default).numCols
                0 d.blockSize))
          (List.range (d.blockInfo.getD id default).numCols)).getD c []
        = List.map (fun q => q.getD c 0)
            (rowsFrom d.buffer d.blockSize d.outputBufSize d.totalNumCols
              (d.blockInfo.getD id default).offset (d.blockInfo.getD id default).numCols
              0 d.blockSize) := by
      rw [List.getD_eq_getElem _ _ (by simpa using hc), List.getElem_map, List.getElem_range]
    show ((List.map _ (List.range _)).getD c []).getD r 0 = _
    rw [hcol]
    rw [List.getD_eq_getElem _ _ (by simpa [rowsFrom_length] using hr)]
    rw [List.getElem_map]
    rw [← List.getD_eq_getElem _ [] (by simpa [rowsFrom_length] using hr)]
    rw [rowsFrom_getD _ _ _ _ _ _ d.blockSize 0 r hr]
    rw [readRow_getD _ _ _ _ hc]
    simp only [Nat.zero_add, resolvedLoc, rowLoc]
    ring_nf

/-- Concrete chunked archive for the C1 counterexample and witness: one
block of two columns, two iterations, one stream chunk; the payload holds
the words 10, 11, 12, 13 at byte offsets 0, 8, 16, 24. -/
def c1Archive : MCellData where
  buffer := [10, 0, 0, 0, 0, 0, 0, 0, 11, 0, 0, 0, 0, 0, 0, 0,
             12, 0, 0, 0, 0, 0, 0, 0, 13, 0, 0, 0, 0, 0, 0, 0]
  outputListType := 1
  blockSize := 2
  stepSize := Q0
  timeList := []
  numBlocks := 1
  blockNames := ["b"]
  blockNameMap := [("b", 0)]
  api := API2
  offset := 0
  blockEntries := []
  outputBufSize := 2
  totalNumCols := 2
  blockInfo := [⟨"b", 2, [1, 1], 0⟩]

/-- C1 counterexample: on `c1Archive`, the code's value at row 0, column 1
is the word 11 (byte offset 8: the second word of row 0), while the
claim's column-major formula addresses byte offset 16 holding the word 12,
so the claimed equation is false at this input. -/
theorem c1_counterexample :
    (((blockDataAPI2 c1Archive 0).toOption.getD default).col.getD 1 []).getD 0 0 = 11 ∧
    f64At c1Archive.buffer (claimLoc c1Archive.blockSize c1Archive.outputBufSize
      c1Archive.totalNumCols (c1Archive.blockInfo.getD 0 default).offset 0 1) = 12 ∧
    ¬ (((blockDataAPI2 c1Archive 0).toOption.getD default).col.getD 1 []).getD 0 0
        = f64At c1Archive.buffer (claimLoc c1Archive.blockSize c1Archive.outputBufSize
            c1Archive.totalNumCols (c1Archive.blockInfo.getD 0 default).offset 0 1) := by
  decide

/-- Witness for the amended C1 theorem at the concrete archive
`c1Archive`, row 1, column 1. -/
theorem c1_blockDataAPI2_layout_witness :
    ∃ cd, blockDataAPI2 c1Archive 0 = Except.ok cd ∧
      cd.col.length = (c1Archive.blockInfo.getD 0 default).numCols ∧
      (∀ v ∈ cd.col, v.length = c1Archive.blockSize) ∧
      (cd.col.getD 1 []).getD 1 0
        = f64At c1Archive.buffer (resolvedLoc c1Archive.blockSize c1Archive.outputBufSize
            c1Archive.totalNumCols (c1Archive.blockInfo.getD 0 default).offset
            (c1Archive.blockInfo.getD 0 default).numCols 1 1) :=
  c1_blockDataAPI2_layout c1Archive 0 (by decide) 1 1 (by decide) (by decide)

/-! ### Byte-stream readers (`parser/util/util.go`)

The `io.Reader` consumed by the parsers is a `List Nat` of bytes; each
reader returns the decoded value and the remaining stream.  `io.ReadFull`
fails when fewer bytes than requested remain. -/

/-- `io.ReadFull` of `n` bytes. -/
def readBytes (n : Nat) (s : List Nat) : Except String (List Nat × List Nat) :=
  if s.length < n then Except.error "unexpected EOF" else Except.ok (s.take n, s.drop n)

/-- `util.ReadByte`. -/
def readByteR (s : List Nat) : Except String (Nat × List Nat) :=
  (readBytes 1 s).map fun p => (leWord p.1, p.2)

/-- `util.ReadUint16`. -/
def readUint16R (s : List Nat) : Except String (Nat × List Nat) :=
  (readBytes 2 s).map fun p => (leWord p.1, p.2)

/-- `util.ReadUint32`. -/
def readUint32R (s : List Nat) : Except String (Nat × List Nat) :=
  (readBytes 4 s).map fun p => (leWord p.1, p.2)

/-- `util.ReadUint64`. -/
def readUint64R (s : List Nat) : Except String (Nat × List Nat) :=
  (readBytes 8 s).map fun p => (leWord p.1, p.2)

/-- Exact rational value of a finite IEEE-754 binary64 number given its
64-bit word (`math.Float64frombits`).  Infinities and NaNs, which no
theorem below touches, are mapped to 0. -/
def f64ValOfBits (w : Nat) : Q :=
  let sign : Nat := w / 2 ^ 63 % 2
  let e : Nat := w / 2 ^ 52 % 2 ^ 11
  let m : Nat := w % 2 ^ 52
  let mag : Q :=
    if e = 0 then ⟨m, 2 ^ 1074⟩
    else if e < 1075 then ⟨(2 ^ 52 + m : Nat), 2 ^ (1075 - e)⟩
    else ⟨((2 ^ 52 + m) * 2 ^ (e - 1075) : Nat), 1⟩
  if e = 2 ^ 11 - 1 then Q0
  else if sign = 1 then ⟨-mag.num, mag.den⟩ else mag

/-- `util.ReadFloat64`: 8 bytes, little-endian, decoded to its exact
rational value. -/
def readFloat64R (s : List Nat) : Except String (Q × List Nat) :=
  (readBytes 8 s).map fun p => (f64ValOfBits (leWord p.1), p.2)

/-- The little-endian encoding of `v` in `n` bytes (test-data helper). -/
def leBytes : Nat → Nat → List Nat
  | 0, _ => []
  | k + 1, v => v % 256 :: leBytes k (v / 256)

/-- Byte values of an ASCII string. -/
def strBytes (s : String) : List Nat := s.toList.map Char.toNat

/-- String built from byte values. -/
def stringOfBytes (bs : List Nat) : String := String.mk (bs.map Char.ofNat)

/-! ### `util.ReadAll` and the API-2 data step -/

/-- `util.ReadAll` (src/parser/util/util.go lines 97-119).  The
`capacity` argument only preallocates: `bytes.Buffer.ReadFrom` reads the
stream to EOF and succeeds however few bytes arrive; the only error it can
surface is `bytes.ErrTooLarge` when the buffer would outgrow the maximum
`int` (2^63-1 on 64-bit Go). -/
def ReadAll (s : List Nat) (_capacity : Nat) : Except String (List Nat) :=
  if s.length ≤ 2 ^ 63 - 1 then Except.ok s else Except.error "bytes.ErrTooLarge"

/-- `parseAPI2.Data` (src/unnamed/part_001 lines 25-37): computes the
capacity `blockSize * totalNumCols * 8 + blockSize` and reads the rest of
the stream into the buffer via `util.ReadAll`. -/
def parseAPI2Data (s : List Nat) (d : MCellData) : Except String MCellData :=
  let capacity := d.blockSize * d.totalNumCols * 8 + d.blockSize
  match ReadAll s capacity with
  | Except.error e => Except.error e
  | Except.ok buf => Except.ok { d with buffer := buf }

/-- C2 (amended): the data-decode step performs no short-read check.  For
every chunked-variant archive and every remaining stream of representable
length — in particular one holding fewer than
`iterationsPerBlock * totalColumnCount * 8 + iterationsPerBlock` bytes —
`Data` succeeds and stores exactly the bytes present; truncation surfaces
only later, as out-of-range access during column resolution, never as a
`TruncatedArchive` error here. -/
theorem c2_data_reads_to_eof (d : MCellData) (s : List Nat)
    (hs : s.length ≤ 2 ^ 63 - 1) :
    parseAPI2Data s d = Except.ok { d with buffer := s } := by
  rw [parseAPI2Data, ReadAll, if_pos hs]

/-- Archive metadata for the C2 counterexample: one block, one column, one
iteration, so the data step's capacity is 9 bytes. -/
def c2Archive : MCellData where
  buffer := []
  outputListType := 1
  blockSize := 1
  stepSize := Q0
  timeList := []
  numBlocks := 1
  blockNames := ["b"]
  blockNameMap := [("b", 0)]
  api := API2
  offset := 0
  blockEntries := []
  outputBufSize := 1
  totalNumCols := 1
  blockInfo := [⟨"b", 1, [1], 0⟩]

/-- C2 counterexample: the empty remaining stream holds fewer bytes (0)
than the required `blockSize * totalNumCols * 8 + blockSize = 9`, yet the
data-decode step succeeds with an empty payload instead of returning a
truncated-archive error. -/
theorem c2_counterexample :
    List.length ([] : List Nat) < c2Archive.blockSize * c2Archive.totalNumCols * 8
        + c2Archive.blockSize ∧
    parseAPI2Data [] c2Archive = Except.ok { c2Archive with buffer := [] } := by
  exact ⟨by decide, rfl⟩

/-- Witness for the amended C2 theorem: the 3-byte stream `[1, 2, 3]` is
stored as the payload unchanged. -/
theorem c2_data_reads_to_eof_witness :
    parseAPI2Data [1, 2, 3] c2Archive = Except.ok { c2Archive with buffer := [1, 2, 3] } :=
  c2_data_reads_to_eof c2Archive [1, 2, 3] (by decide)

/-! ### Output-scheme enumeration and the legacy scheme header -/

/-- `libmbd.Step` (src/unnamed/part_010 lines 13-17): `1 << iota`. -/
def Step : Nat := 1

/-- `libmbd.TimeListType`. -/
def TimeListType : Nat := 2

/-- `libmbd.IterationListType` — note `1 << 2 = 4`, not 3. -/
def IterationListType : Nat := 4

/-- The float-list loop shared by the `TIME_LIST`/`ITERATION_LIST` cases. -/
def readTimeVals : Nat → List Nat → Except String (List Q × List Nat)
  | 0, s => Except.ok ([], s)
  | n + 1, s => do
    let (v, s) ← readFloat64R s
    let (rest, s) ← readTimeVals n s
    pure (v :: rest, s)

/-- `parseAPI1.parseBlockInfo` (src/parser/parseAPI1/parseAPI1.go lines
53-99): reads the `u32` output-scheme code, maps it `uint16(code) + 1`
(16-bit arithmetic) into the scheme enumeration, reads the `u64` length
field, then the scheme-dependent time data; any unmatched scheme value is
the fatal unknown-output-type error. -/
def parseBlockInfoAPI1 (s : List Nat) (d : MCellData) :
    Except String (MCellData × List Nat) := do
  let (code, s) ← readUint32R s
  let t := (code % 2 ^ 16 + 1) % 2 ^ 16
  let d := { d with outputListType := t }
  let (len, s) ← readUint64R s
  if t = Step then do
    let (sv, s) ← readFloat64R s
    pure ({ d with stepSize := sv }, s)
  else if t = TimeListType then do
    let (tl, s) ← readTimeVals len s
    pure ({ d with timeList := d.timeList ++ tl }, s)
  else if t = IterationListType then do
    let (tl, s) ← readTimeVals len s
    pure ({ d with timeList := d.timeList ++ tl }, s)
  else Except.error "encountered unknown data output type"

/-- The Go zero value of `MCellData`, as allocated by
`new(libmbd.MCellData)`. -/
def emptyMCellData : MCellData :=
  ⟨[], 0, 0, Q0, [], 0, [], [], "", 0, [], 0, 0, []⟩

/-- C6: the legacy variant maps the `u32` output-scheme code by
`uint16(code) + 1` into the enumeration shared with the chunked variant —
but that enumeration is `1 << iota` (`Step = 1`, `TimeListType = 2`,
`IterationListType = 4`), so code 0 decodes to `FixedStep` and code 1 to
`TimeList`, while code 2 maps to 3, which matches no enumerant, and the
parser fails with the unknown-output-scheme error instead of decoding
`IterationList`.  This contradicts the source's own comment "since output
type is 0, 1, or 2 this conversion is safe". -/
theorem c6_scheme_code_mapping :
    ((parseBlockInfoAPI1 (leBytes 4 0 ++ leBytes 8 0 ++ leBytes 8 0) emptyMCellData).map
        fun p => p.1.outputListType) = Except.ok Step ∧
    ((parseBlockInfoAPI1 (leBytes 4 1 ++ leBytes 8 0) emptyMCellData).map
        fun p => p.1.outputListType) = Except.ok TimeListType ∧
    parseBlockInfoAPI1 (leBytes 4 2 ++ leBytes 8 0) emptyMCellData
      = Except.error "encountered unknown data output type" := by
  refine ⟨rfl, rfl, rfl⟩

/-! ### API-2 header decode and the parser wrapper (`src/unnamed/part_000`,
`src/unnamed/part_001`) -/

/-- Read one NUL-terminated block name (the byte loop of
`parseBlockNames`): bytes up to the first 0, which is consumed. -/
def readName : List Nat → Except String (List Nat × List Nat)
  | [] => Except.error "unexpected EOF"
  | b :: rest =>
    if b = 0 then Except.ok ([], rest)
    else do
      let (nm, s) ← readName rest
      pure (b :: nm, s)

/-- The `numCols` data-kind (`u16`) reads of one directory entry. -/
def readTypes : Nat → List Nat → Except String (List Nat × List Nat)
  | 0, s => Except.ok ([], s)
  | n + 1, s => do
    let (t, s) ← readUint16R s
    let (rest, s) ← readTypes n s
    pure (t :: rest, s)

/-- The entry loop of `parseAPI2.parseBlockNames` (src/unnamed/part_001
lines 97-142): `idx` is the Go loop counter, `totalCols` the running
column offset recorded as each entry's `Offset`; `TotalNumCols` is the
grand total. -/
def parseNamesLoop : Nat → Nat → Nat → MCellData → List Nat →
    Except String (MCellData × List Nat)
  | 0, _, totalCols, d, s => Except.ok ({ d with totalNumCols := totalCols }, s)
  | n + 1, idx, totalCols, d, s => do
    let (nmBytes, s) ← readName s
    let nm := stringOfBytes nmBytes
    let (nCols, s) ← readUint64R s
    let (tys, s) ← readTypes nCols s
    parseNamesLoop n (idx + 1) (totalCols + nCols)
      { d with blockNames := d.blockNames ++ [nm],
               blockNameMap := d.blockNameMap ++ [(nm, idx)],
               blockInfo := d.blockInfo ++ [⟨nm, nCols, tys, totalCols⟩] } s

/-- `parseAPI2.parseBlockNames`. -/
def parseBlockNamesAPI2 (s : List Nat) (d : MCellData) :
    Except String (MCellData × List Nat) :=
  parseNamesLoop d.numBlocks 0 0 d s

/-- `parseAPI2.parseBlockInfo` (src/unnamed/part_001 lines 41-94): `u16`
scheme code (no remapping), iteration count, length field,
scheme-dependent time data, stream-chunk stride, block count. -/
def parseBlockInfoAPI2 (s : List Nat) (d : MCellData) :
    Except String (MCellData × List Nat) := do
  let (t, s) ← readUint16R s
  let (bs, s) ← readUint64R s
  let (len, s) ← readUint64R s
  let d := { d with outputListType := t, blockSize := bs }
  let (d, s) ←
    if t = Step then do
      let (sv, s) ← readFloat64R s
      pure ({ d with stepSize := sv }, s)
    else if t = TimeListType then do
      let (tl, s) ← readTimeVals len s
      pure (({ d with timeList := d.timeList ++ tl } : MCellData), s)
    else if t = IterationListType then do
      let (tl, s) ← readTimeVals len s
      pure (({ d with timeList := d.timeList ++ tl } : MCellData), s)
    else Except.error "encountered unknown data output type"
  let (obs, s) ← readUint64R s
  let (nb, s) ← readUint64R s
  pure ({ d with outputBufSize := obs, numBlocks := nb }, s)

/-- `parseAPI2.parseHeader` (src/unnamed/part_001 lines 147-164): skip the
historic defect byte, then block info, then the directory. -/
def parseHeaderAPI2 (s : List Nat) (d : MCellData) :
    Except String (MCellData × List Nat) := do
  let (_, s) ← readBytes 1 s
  let (d, s) ← parseBlockInfoAPI2 s d
  parseBlockNamesAPI2 s d

/-- `parser.parseAPITag` (src/unnamed/part_000 lines 76-82): the fixed
18-byte ASCII tag. -/
def parseAPITag (s : List Nat) : Except String (String × List Nat) :=
  (readBytes 18 s).map fun p => (stringOfBytes p.1, p.2)

/-- `parser.ReadHeader` (src/unnamed/part_000 lines 19-43), file opening
and bzip2 decompression abstracted into the byte stream.  The tag switch
has a case only for `MCELL_BINARY_API_2` and no default: any other tag
falls through and the freshly allocated zero `MCellData` is returned with
no error. -/
def parserReadHeader (s : List Nat) : Except String MCellData := do
  let (tag, s) ← parseAPITag s
  if tag = API2 then do
    let (d, _) ← parseHeaderAPI2 s emptyMCellData
    pure d
  else pure emptyMCellData

/-- `parser.Read` (src/unnamed/part_000 lines 45-73): as `ReadHeader`,
plus the data step in the recognized case. -/
def parserRead (s : List Nat) : Except String MCellData := do
  let (tag, s) ← parseAPITag s
  if tag = API2 then do
    let (d, s) ← parseHeaderAPI2 s emptyMCellData
    parseAPI2Data s d
  else pure emptyMCellData

/-- `libmbd.checkAPITag` (src/libmbd/libmbd.go lines 262-273), the earlier
monolithic decoder's tag check: any tag other than `MCELL_BINARY_API_2` is
rejected. -/
def checkAPITag (s : List Nat) : Except String (List Nat) := do
  let (p : List Nat × List Nat) ← readBytes 18 s
  if stringOfBytes p.1 = API2 then pure p.2
  else Except.error ("incorrect API Tag " ++ stringOfBytes p.1)

/-- C7: header decode does not reject unrecognized format tags.  On a
stream whose 18-byte tag is `MCELL_BINARY_API_9` — matching neither
recognized tag — the parser wrapper's `Read` and `ReadHeader` return the
zero-valued archive with no error, because the tag switch has no default
case; only the earlier monolithic `checkAPITag` rejects the stream as the
claim describes. -/
theorem c7_unknown_tag_not_rejected :
    parserRead (strBytes "MCELL_BINARY_API_9") = Except.ok emptyMCellData ∧
    parserReadHeader (strBytes "MCELL_BINARY_API_9") = Except.ok emptyMCellData ∧
    checkAPITag (strBytes "MCELL_BINARY_API_9")
      = Except.error "incorrect API Tag MCELL_BINARY_API_9" := by
  refine ⟨rfl, rfl, rfl⟩

/-- C10: for every legacy-variant block whose 1-byte kind tag is neither 0
(integer) nor 1 (double), `BlockDataByID` returns, with no error, a
`CountData` holding the single still-empty column and the tag itself: no
item is decoded and the exact-consumption check against the block's byte
range is skipped entirely. -/
theorem c10_unknown_kind_tag (d : MCellData) (id : Nat) (hapi : d.api = API1)
    (hid : id < d.numBlocks)
    (ht0 : (d.blockEntries.getD id default).type ≠ 0)
    (ht1 : (d.blockEntries.getD id default).type ≠ 1) :
    BlockDataByID d id = Except.ok ⟨[[]], [(d.blockEntries.getD id default).type]⟩ := by
  rw [BlockDataByID, if_pos hid, hapi, if_pos rfl, blockDataAPI1]
  simp only [if_neg ht0, if_neg ht1]

/-- Archive for the C10 witness: a single legacy block with kind tag 7 and
a deliberately inconsistent `[start, stop)` range, which the skipped
consumption check never notices. -/
def c10Archive : MCellData :=
  { emptyMCellData with
      api := API1
      numBlocks := 1
      blockSize := 3
      blockNames := ["x"]
      blockNameMap := [("x", 0)]
      blockEntries := [⟨7, 5, 500⟩]
      offset := 5 }

/-- Witness for the C10 theorem at `c10Archive`, block 0. -/
theorem c10_unknown_kind_tag_witness :
    BlockDataByID c10Archive 0
      = Except.ok ⟨[[]], [(c10Archive.blockEntries.getD 0 default).type]⟩ :=
  c10_unknown_kind_tag c10Archive 0 rfl (by decide) (by decide) (by decide)

/-! ## Release engine (`src/releaser`)

The engine is a pure transform except for two collaborators that a shallow
embedding must parameterize:

* the random generator: worker code builds one `rand.Rand` and the policy
  consumes `rng.Float64()` samples one at a time, so the generator is a
  sample stream `draws : Nat → Q` together with a position, advanced by
  each consumed sample;
* `math.Exp`: floating-point, so the engine is parameterized by
  `mexp : Int → Q`, the value of `math.Exp` on the integer argument
  `energy - vesicleFusionEnergy`.  Every universally quantified theorem
  below holds for every interpretation of `mexp`; concrete runs pick
  sample values on which the `<` comparisons agree with the true
  exponential.

`log.Fatal`, which terminates the whole process, is the `RErr.fatal`
outcome, distinguished from an error return `RErr.err`. -/

/-- Error outcomes of the release engine. -/
inductive RErr where
  | err : String → RErr
  | fatal : String → RErr
deriving Repr, DecidableEq

instance {α β : Type} [DecidableEq α] [DecidableEq β] : DecidableEq (Except α β) := fun a b =>
  match a, b with
  | Except.error x, Except.error y =>
    match decEq x y with
    | isTrue h => isTrue (h ▸ rfl)
    | isFalse h => isFalse fun hh => h (by cases hh; rfl)
  | Except.ok x, Except.ok y =>
    match decEq x y with
    | isTrue h => isTrue (h ▸ rfl)
    | isFalse h => isFalse fun hh => h (by cases hh; rfl)
  | Except.error _, Except.ok _ => isFalse fun hh => Except.noConfusion hh
  | Except.ok _, Except.error _ => isFalse fun hh => Except.noConfusion hh

/-- `releaser.SytSite` (`iota`). -/
def SytSite : Nat := 0

/-- `releaser.YSite`. -/
def YSite : Nat := 1

/-- `releaser.CaSensor`. -/
structure CaSensor where
  sites : List Nat
  siteType : Nat
deriving Repr, DecidableEq, Inhabited

/-- `releaser.SimModel` (the fields the engine reads). -/
structure SimModel where
  caSensors : List CaSensor
  vesicleIDs : List String
  vgccVesicleMap : List (String × String)
  sensorTemplate : String
  numPulses : Nat
  isiValue : Q
  pulseDuration : Q
deriving Repr, Inhabited

/-- `releaser.FusionModel`. -/
structure FusionModel where
  numSyt : Nat
  numY : Nat
  numActiveSyt : Int
  numActiveY : Int
  vesicleFusionEnergy : Int
  energyModel : Bool
  sytEnergy : Int
  yEnergy : Int
  numActiveSites : Int
deriving Repr, Inhabited

/-- `releaser.ActEvent`.  Iteration indices are scan positions of the
activation extraction and hence non-negative. -/
structure ActEvent where
  sensorID : Nat
  vesicleID : String
  eventIter : Nat
  activated : Bool
deriving Repr, DecidableEq, Inhabited

/-- `releaser.ReleaseEvent`.  The Go `sensors []int` slice is filled from
range-iteration over the active-set map, whose order Go randomizes; its
content is the set, modelled as such (the output code sorts it before
printing "to make output consistent across runs"). -/
structure ReleaseEvent where
  sensors : Finset Nat
  vesicleID : String
  eventIter : Nat
deriving DecidableEq, Inhabited

/-- Insertion step of the event sort. -/
def insertByIter (e : ActEvent) : List ActEvent → List ActEvent
  | [] => [e]
  | x :: xs => if e.eventIter < x.eventIter then e :: x :: xs else x :: insertByIter e xs

/-- The event sort `sort.Sort(byIter(evts))` with `Less` comparing
`eventIter`.  Go's `sort.Sort` guarantees only the ordering; it is not
stable, and the permutation it picks among equal iterations is a library
implementation detail.  The embedding uses a stable insertion sort; the
theorems below either fix inputs on which every sorted permutation gives
the same result or do not depend on the order. -/
def sortByIter : List ActEvent → List ActEvent
  | [] => []
  | x :: xs => insertByIter x (sortByIter xs)

/-- `releaser.getEnergy` (lines 336-346): sum of the class energies of the
active sensors. -/
def getEnergy (caSensors : List CaSensor) (events : Finset Nat) (sytEnergy yEnergy : Int) :
    Int :=
  events.sum fun s =>
    if (caSensors.getD s default).siteType = SytSite then sytEnergy else yEnergy

/-- The Bernoulli scan of `checkForRelease` (lines 410-414): one draw per
iteration offset, accepting the first sample strictly below `prob`;
returns the accepted offset and the next generator position. -/
def releaseScanAux (draws : Nat → Q) (prob : Q) : Nat → Nat → Nat → Option Nat × Nat
  | _, pos, 0 => (none, pos)
  | i, pos, n + 1 =>
    if Qlt (draws pos) prob then (some i, pos + 1)
    else releaseScanAux draws prob (i + 1) (pos + 1) n

/-- `releaser.checkForRelease` (lines 397-416): immediate release when the
energy reaches the fusion threshold; otherwise `prob = exp(energy -
vesicleFusionEnergy)` (`mexp`), fatal when `prob >= 1`, else the
per-iteration Bernoulli scan. -/
def checkForRelease (mexp : Int → Q) (vesicleFusionEnergy energy : Int) (numIters : Nat)
    (draws : Nat → Q) (pos : Nat) : Except RErr (Option Nat) × Nat :=
  if vesicleFusionEnergy ≤ energy then (Except.ok (some 0), pos)
  else
    let prob := mexp (energy - vesicleFusionEnergy)
    if Qle (QofNat 1) prob then (Except.error (RErr.fatal "probability out of bounds"), pos)
    else
      let r := releaseScanAux draws prob 0 pos numIters
      (Except.ok r.1, r.2)

/-- `releaser.checkForDeterministicRelease` (lines 358-372): fires exactly
when the active-set size equals `numActiveSites`; the (always-nil) error
return is dropped. -/
def checkForDeterministicRelease (vesID : String) (numActiveSites : Int) (evt : ActEvent)
    (activeEvts : Finset Nat) : Option ReleaseEvent :=
  if (activeEvts.card : Int) = numActiveSites then some ⟨activeEvts, vesID, evt.eventIter⟩
  else none

/-- `releaser.checkForEnergyRelease` (lines 379-395).  Go computes
`numIters` by `uint64` subtraction before the out-of-order check; the
wrapped value is never used because the error returns first. -/
def checkForEnergyRelease (mexp : Int → Q) (fusionEnergy energy : Int) (vesID : String)
    (evt : ActEvent) (activeEvts : Finset Nat) (nextEvtIter : Nat)
    (draws : Nat → Q) (pos : Nat) : Except RErr (Option ReleaseEvent) × Nat :=
  if nextEvtIter < evt.eventIter then
    (Except.error (RErr.err "encountered out of order release event"), pos)
  else
    match checkForRelease mexp fusionEnergy energy (nextEvtIter - evt.eventIter) draws pos with
    | (Except.error e, pos') => (Except.error e, pos')
    | (Except.ok none, pos') => (Except.ok none, pos')
    | (Except.ok (some i), pos') =>
      (Except.ok (some ⟨activeEvts, vesID, evt.eventIter + i⟩), pos')

/-- The event application step of `extractReleaseEvents` (lines 292-304):
activating an already-active sensor or deactivating an inactive one is the
inconsistent-activation-state error. -/
def applyEvent (activeEvts : Finset Nat) (e : ActEvent) : Except RErr (Finset Nat) :=
  if e.activated then
    if e.sensorID ∈ activeEvts then
      Except.error (RErr.err "trying to add active event that already exists")
    else Except.ok (insert e.sensorID activeEvts)
  else
    if e.sensorID ∈ activeEvts then Except.ok (activeEvts.erase e.sensorID)
    else Except.error (RErr.err "trying to remove a nonexisting active event")

/-- `releaser.getNextEvtIter` (lines 350-356): the iteration of the next
event in the queue, or the archive's iteration count after the last
event.  `rest` is the tail of the event list at the current index. -/
def getNextEvtIter (maxIter : Nat) (rest : List ActEvent) : Nat :=
  match rest with
  | [] => maxIter
  | nx :: _ => nx.eventIter

/-- The main loop of `extractReleaseEvents` (lines 292-330) over the
sorted events: apply the event; when the next event shares the iteration,
continue the merge without evaluating; otherwise evaluate the configured
policy once on the post-merge active set, returning the first release or
error.  The Go index accesses `evts[i+1]` become head inspections of the
remaining list. -/
def extractLoop (mexp : Int → Q) (model : SimModel) (fusion : FusionModel) (maxIter : Nat)
    (vesID : String) (draws : Nat → Q) :
    List ActEvent → Finset Nat → Nat → Except RErr (Option ReleaseEvent) × Nat
  | [], _, pos => (Except.ok none, pos)
  | e :: rest, activeEvts, pos =>
    match applyEvent activeEvts e with
    | Except.error er => (Except.error er, pos)
    | Except.ok active' =>
      if rest.head?.any fun nx => nx.eventIter = e.eventIter then
        extractLoop mexp model fusion maxIter vesID draws rest active' pos
      else if fusion.energyModel then
        match checkForEnergyRelease mexp fusion.vesicleFusionEnergy
            (getEnergy model.caSensors active' fusion.sytEnergy fusion.yEnergy) vesID e
            active'
            (getNextEvtIter maxIter rest) draws pos with
        | (Except.error er, pos') => (Except.error er, pos')
        | (Except.ok (some rel), pos') => (Except.ok (some rel), pos')
        | (Except.ok none, pos') =>
          extractLoop mexp model fusion maxIter vesID draws rest active' pos'
      else
        match checkForDeterministicRelease vesID fusion.numActiveSites e active' with
        | some rel => (Except.ok (some rel), pos)
        | none => extractLoop mexp model fusion maxIter vesID draws rest active' pos

/-- `releaser.extractReleaseEvents` (lines 285-332). -/
def extractReleaseEvents (mexp : Int → Q) (evts : List ActEvent) (model : SimModel)
    (fusion : FusionModel) (maxIter : Nat) (vesID : String) (draws : Nat → Q) (pos : Nat) :
    Except RErr (Option ReleaseEvent) × Nat :=
  extractLoop mexp model fusion maxIter vesID draws (sortByIter evts) ∅ pos

/-! ### Activation extraction (`extractActivationEvents`, lines 224-283) -/

/-- `fmt.Sprintf` argument. -/
inductive FmtArg where
  | s : String → FmtArg
  | d : Int → FmtArg

/-- Go's `%0Nd` for the non-negative values formatted here (site indices,
pulse numbers, seeds). -/
def padNum (width : Nat) (v : Int) : String :=
  if v < 0 then toString v
  else
    let t := toString v.toNat
    String.mk (List.replicate (width - t.length) '0') ++ t

/-- Model of `fmt.Sprintf` for the verb set the sensor templates use:
`%s`, `%d`, `%02d`, `%04d`.  Other verbs and argument-count mismatches do
not occur in the templates analyzed. -/
def goSprintfAux : List Char → List FmtArg → String
  | [], _ => ""
  | '%' :: 's' :: rest, FmtArg.s v :: args => v ++ goSprintfAux rest args
  | '%' :: 'd' :: rest, FmtArg.d v :: args => toString v ++ goSprintfAux rest args
  | '%' :: '0' :: '2' :: 'd' :: rest, FmtArg.d v :: args => padNum 2 v ++ goSprintfAux rest args
  | '%' :: '0' :: '4' :: 'd' :: rest, FmtArg.d v :: args => padNum 4 v ++ goSprintfAux rest args
  | c :: rest, args => String.singleton c ++ goSprintfAux rest args

/-- See `goSprintfAux`. -/
def goSprintf (fmt : String) (args : List FmtArg) : String :=
  goSprintfAux fmt.toList args

/-- The data names of one binding site (lines 241-252): one name in the
single-pulse case, else one per pulse `1 .. numPulses`. -/
def sensorDataNames (m : SimModel) (vesID sensorString : String) (site : Nat) (seed : Int) :
    List String :=
  if m.numPulses = 1 then
    [goSprintf m.sensorTemplate
      [FmtArg.s vesID, FmtArg.s sensorString, FmtArg.d site, FmtArg.d seed]]
  else
    (List.range m.numPulses).map fun p =>
      goSprintf m.sensorTemplate
        [FmtArg.s vesID, FmtArg.s sensorString, FmtArg.d site, FmtArg.d (p + 1), FmtArg.d seed]

/-- All data names of one sensor: its sites in order. -/
def sensorNames (m : SimModel) (sensor : CaSensor) (sensorString vesID : String)
    (seed : Int) : List String :=
  (sensor.sites.map fun s => sensorDataNames m vesID sensorString s seed).flatten

/-- `sensorData[i] += int(bd.Col[0][i])` (lines 265-267).  Column entries
are modelled by their exact numeric value, which matches Go exactly on the
API-1 integer columns every archive below uses. -/
def addCol (sensorData : List Int) (col : List Nat) : List Int :=
  (List.range sensorData.length).map fun i => sensorData.getD i 0 + (col.getD i 0 : Int)

/-- The per-name resolution and summation loop (lines 255-268): resolves
each data name, requires a single column, and accumulates elementwise. -/
def sumSensorData (data : MCellData) : List String → List Int → Except RErr (List Int)
  | [], acc => Except.ok acc
  | n :: rest, acc =>
    match BlockDataByName data n with
    | Except.error e => Except.error (RErr.err e)
    | Except.ok bd =>
      if bd.col.length = 1 then sumSensorData data rest (addCol acc (bd.col.getD 0 []))
      else Except.error (RErr.err ("data set " ++ n ++ " had more than one data column"))

/-- The threshold scan (lines 271-280): emit an activation on each
below-to-at-or-above transition and a deactivation on the reverse. -/
def scanEventsAux (id : Nat) (vesID : String) (actThresh : Int) :
    List Int → Nat → Bool → List ActEvent
  | [], _, _ => []
  | b :: rest, i, active =>
    if active = false ∧ actThresh ≤ b then
      ⟨id, vesID, i, true⟩ :: scanEventsAux id vesID actThresh rest (i + 1) true
    else if active = true ∧ b < actThresh then
      ⟨id, vesID, i, false⟩ :: scanEventsAux id vesID actThresh rest (i + 1) false
    else scanEventsAux id vesID actThresh rest (i + 1) active

/-- The per-sensor loop of `extractActivationEvents`, over the sensor ids
in order; events of successive sensors are concatenated in emission
order. -/
def extractSensors (data : MCellData) (m : SimModel) (fusion : FusionModel) (seed : Int)
    (vesID : String) : List Nat → Except RErr (List ActEvent)
  | [] => Except.ok []
  | id :: rest =>
    let sensor := m.caSensors.getD id default
    let sensorString := if sensor.siteType = YSite then "sensor_Y" else "sensor"
    let actThresh := if sensor.siteType = YSite then fusion.numActiveY else fusion.numActiveSyt
    match sumSensorData data (sensorNames m sensor sensorString vesID seed)
        (List.replicate data.blockSize 0) with
    | Except.error e => Except.error e
    | Except.ok sensorData =>
      match extractSensors data m fusion seed vesID rest with
      | Except.error e => Except.error e
      | Except.ok evts =>
        Except.ok (scanEventsAux id vesID actThresh sensorData 0 false ++ evts)

/-- `releaser.extractActivationEvents` (lines 224-283). -/
def extractActivationEvents (data : MCellData) (m : SimModel) (fusion : FusionModel)
    (seed : Int) (vesID : String) : Except RErr (List ActEvent) :=
  extractSensors data m fusion seed vesID (List.range m.caSensors.length)

/-! ### `analyze` and the result assembly -/

/-- The vesicle loop of `releaser.analyze` (lines 95-112): per vesicle,
extract activation events (a vesicle with none is skipped), then run the
release decision, collecting at most one release per vesicle; any error
aborts the whole archive's analysis. -/
def analyzeLoop (mexp : Int → Q) (data : MCellData) (m : SimModel) (fusion : FusionModel)
    (draws : Nat → Q) (seed : Int) :
    List String → Nat → Except RErr (List ReleaseEvent) × Nat
  | [], pos => (Except.ok [], pos)
  | vesID :: rest, pos =>
    match extractActivationEvents data m fusion seed vesID with
    | Except.error e => (Except.error e, pos)
    | Except.ok evts =>
      if evts.isEmpty then analyzeLoop mexp data m fusion draws seed rest pos
      else
        match extractReleaseEvents mexp evts m fusion data.blockSize vesID draws pos with
        | (Except.error e, pos') => (Except.error e, pos')
        | (Except.ok orel, pos') =>
          match analyzeLoop mexp data m fusion draws seed rest pos' with
          | (Except.error e, posF) => (Except.error e, posF)
          | (Except.ok rels, posF) =>
            (Except.ok ((match orel with | some rel => [rel] | none => []) ++ rels), posF)

/-- One line of `assembleReleaseMsgs` output, as its informational fields
(the `fmt.Fprintf` rendering is presentation): seed, vesicle, event time,
pulse id, the release's sensor set (which the Go code sorts purely for
rendering), sorted per-channel calcium contributions, total bound
calcium, main-channel indicator, contributing channel count. -/
structure RelMsg where
  seed : Int
  vesicleID : String
  eventTime : Q
  pulse : String
  sensors : Finset Nat
  channels : List (String × Nat)
  totalCaBound : Int
  mainChannelContrib : String
  numContribChannels : Nat
deriving DecidableEq

/-- Character-list prefix test. -/
def isPre : List Char → List Char → Bool
  | [], _ => true
  | _ :: _, [] => false
  | a :: as, b :: bs => a = b && isPre as bs

/-- Character-list containment (Go `regexp` matching is unanchored). -/
def containsSub (pat : List Char) : List Char → Bool
  | [] => isPre pat []
  | c :: rest => isPre pat (c :: rest) || containsSub pat rest

/-- The regex `vesicle(_Y)?_<ves>_ca_.*` of `determineCaChanContrib`
applied by `regexp.MatchString`: unanchored, so a name matches iff it
contains `vesicle_<ves>_ca_` or `vesicle_Y_<ves>_ca_` (vesicle ids here
hold no regex metacharacters). -/
def matchesVesCa (vesID name : String) : Bool :=
  containsSub ("vesicle_" ++ vesID ++ "_ca_").toList name.toList ||
  containsSub ("vesicle_Y_" ++ vesID ++ "_ca_").toList name.toList

/-- `strings.SplitAfter`: pieces each ending with the separator, the last
piece the remainder.  `fuel` is initialized to the subject length, which
the recursion never exhausts. -/
def splitAfterGo (sep : List Char) : Nat → List Char → List Char → List (List Char)
  | _, cur, [] => [cur.reverse]
  | 0, cur, s => [cur.reverse ++ s]
  | fuel + 1, cur, c :: rest =>
    if isPre sep (c :: rest) then
      (cur.reverse ++ sep) :: splitAfterGo sep fuel [] (List.drop (sep.length - 1) rest)
    else splitAfterGo sep fuel (c :: cur) rest

/-- Add one channel contribution (`channels[caString] += v`). -/
def addChan (channels : List (String × Nat)) (key : String) (v : Nat) :
    List (String × Nat) :=
  if channels.any fun p => p.1 = key then
    channels.map fun p => if p.1 = key then (p.1, p.2 + v) else p
  else channels ++ [(key, v)]

/-- The block scan of `determineCaChanContrib` (src/releaser/releaser.go
lines 188-215) fused with the `BlockDataByRegex` name iteration it calls:
for every matching block with a positive count at the release iteration,
the channel name — the text after the first `ca_` up to the next `.` —
accumulates the count.  Go iterates the intermediate map in randomized
order; the accumulation is a commutative sum of exact integers, so the
name-order fold is its faithful representative. -/
def caContribLoop (data : MCellData) (vesID : String) (iter : Nat) :
    List String → List (String × Nat) → Except RErr (List (String × Nat))
  | [], channels => Except.ok channels
  | n :: rest, channels =>
    if matchesVesCa vesID n then
      match BlockDataByName data n with
      | Except.error e => Except.error (RErr.err e)
      | Except.ok c =>
        if c.col.length = 1 then
          let v := (c.col.getD 0 []).getD iter 0
          if 0 < v then
            let subs := splitAfterGo "ca_".toList n.length [] n.toList
            if subs.length < 2 then
              Except.error (RErr.err "could not determined Ca channel name")
            else
              let caString := String.mk ((subs.getD 1 []).takeWhile fun ch => ch ≠ '.')
              caContribLoop data vesID iter rest (addChan channels caString v)
          else caContribLoop data vesID iter rest channels
        else
          Except.error (RErr.err ("data set " ++ n ++ " has more than the expected 1 column"))
    else caContribLoop data vesID iter rest channels

/-- `releaser.determineCaChanContrib`. -/
def determineCaChanContrib (data : MCellData) (rel : ReleaseEvent) :
    Except RErr (List (String × Nat)) :=
  caContribLoop data rel.vesicleID rel.eventIter data.blockNames []

/-- `releaser.checkCaNumbers` (src/releaser/releaseEngine.go lines
421-444): expected bound calcium is 2 per active synaptotagmin and 1 per
active Y sensor; a sensor of any other class is its own error; fewer
actual ions than expected is the shortfall error. -/
def checkCaNumbers (caSensors : List CaSensor) (channels : List (String × Nat))
    (r : ReleaseEvent) : Except RErr Unit :=
  if (r.sensors.filter fun s => ¬ ((caSensors.getD s default).siteType = SytSite ∨
      (caSensors.getD s default).siteType = YSite)).Nonempty then
    Except.error (RErr.err "in checkCaNumbers: Encountered incorrect binding site type")
  else
    let expected : Int := r.sensors.sum fun s =>
      if (caSensors.getD s default).siteType = SytSite then 2 else 1
    let actual : Int := (channels.map fun p => (p.2 : Int)).sum
    if actual < expected then
      Except.error (RErr.err ("The number of bound Ca ions (" ++ toString actual ++
        ") is smaller than expected based on the activation status (" ++
        toString expected ++ ")"))
    else Except.ok ()

/-- `releaser.gatherPulseID` (lines 163-178).  The float arithmetic is
modelled exactly over `Q`; the concrete runs below use values on which the
float computation is exact. -/
def gatherPulseID (isi duration eventTime : Q) : String :=
  let pulseID : Int := if Qisz isi then 0 else Qfloor (Qdiv eventTime isi)
  if Qlt duration (Qsub eventTime (Qmul ⟨pulseID, 1⟩ isi)) then
    "ISI_" ++ toString (pulseID + 1)
  else toString (pulseID + 1)

/-- String-list insertion sort (`sort.StringSlice`). -/
def insertStr (x : String) : List String → List String
  | [] => [x]
  | y :: ys => if x < y then x :: y :: ys else y :: insertStr x ys

/-- See `insertStr`. -/
def sortStrs : List String → List String
  | [] => []
  | x :: xs => insertStr x (sortStrs xs)

/-- `releaser.gatherVGCCData` (lines 183-220): channels sorted by name
with their integer counts, the main-channel indicator (`Y`/`N`/`NA`), and
the total bound calcium. -/
def gatherVGCCData (vesMap : List (String × String)) (channels : List (String × Nat))
    (vesicleID : String) : List (String × Nat) × String × Int :=
  let mainChannel :=
    if vesMap.isEmpty then ""
    else (((vesMap.find? fun p => p.1 = vesicleID).map fun p => p.2).getD "")
  let cs := sortStrs (channels.map fun p => p.1)
  let entries := cs.map fun c =>
    (c, ((channels.find? fun p => p.1 = c).map fun p => p.2).getD 0)
  let totalCa : Int := (entries.map fun p => (p.2 : Int)).sum
  let haveMain := channels.any fun p => p.1 = mainChannel
  let mainMsg := if haveMain then "Y" else if ¬ mainChannel = "" then "N" else "NA"
  (entries, mainMsg, totalCa)

/-- `releaser.assembleReleaseMsgs` (src/releaser/releaseEngine.go lines
117-159).  The two `log.Fatal(err)` calls — a channel-contribution error
and a failed calcium-number check — are the fatal outcome. -/
def assembleReleaseMsgs (data : MCellData) (m : SimModel) (seed : Int) :
    List ReleaseEvent → Except RErr (List RelMsg)
  | [] => Except.ok []
  | r :: rest =>
    match determineCaChanContrib data r with
    | Except.error (RErr.err e) => Except.error (RErr.fatal e)
    | Except.error e => Except.error e
    | Except.ok channels =>
      match checkCaNumbers m.caSensors channels r with
      | Except.error (RErr.err e) => Except.error (RErr.fatal e)
      | Except.error e => Except.error e
      | Except.ok _ =>
        let eventTime := Qmul (QofNat r.eventIter) data.stepSize
        let pulse := gatherPulseID m.isiValue m.pulseDuration eventTime
        let g := gatherVGCCData m.vgccVesicleMap channels r.vesicleID
        match assembleReleaseMsgs data m seed rest with
        | Except.error e => Except.error e
        | Except.ok msgs =>
          Except.ok (⟨seed, r.vesicleID, eventTime, pulse,
            r.sensors, g.1, g.2.2, g.2.1, channels.length⟩ :: msgs)

/-- `releaser.analyze` (src/releaser/releaseEngine.go lines 90-115): the
vesicle loop, then the message assembly over the collected releases. -/
def analyze (mexp : Int → Q) (data : MCellData) (m : SimModel) (fusion : FusionModel)
    (draws : Nat → Q) (pos : Nat) (seed : Int) : Except RErr (List RelMsg) × Nat :=
  match analyzeLoop mexp data m fusion draws seed m.vesicleIDs pos with
  | (Except.error e, pos') => (Except.error e, pos')
  | (Except.ok rels, pos') =>
    match assembleReleaseMsgs data m seed rels with
    | Except.error e => (Except.error e, pos')
    | Except.ok msgs => (Except.ok msgs, pos')

/-- One `releaser.Output`. -/
inductive WOutput where
  | failure : String → WOutput
  | success : List RelMsg → WOutput
deriving DecidableEq

/-- The job loop of `releaser.runJob` (src/releaser/releaser.go lines
72-103) for one worker: a single generator — created before the loop as
`rand.New(rand.NewSource(time.Now().UnixNano()))`, i.e. seeded from the
wall clock, and modelled by the ambient `draws` stream with its running
position — is shared by every archive the worker analyzes.  A failing job
contributes its error `Output` and the loop continues; `log.Fatal` inside
the analysis terminates the process, producing no further output.
Filename seed extraction and file decoding are abstracted: each job
arrives as the decoded archive with its filename seed. -/
def runJobLoop (mexp : Int → Q) (m : SimModel) (fusion : FusionModel) (draws : Nat → Q) :
    List (MCellData × Int) → Nat → List WOutput × Option String
  | [], _ => ([], none)
  | (data, seed) :: rest, pos =>
    match analyze mexp data m fusion draws pos seed with
    | (Except.error (RErr.fatal msg), _) => ([], some msg)
    | (Except.error (RErr.err msg), pos') =>
      let r := runJobLoop mexp m fusion draws rest pos'
      (WOutput.failure msg :: r.1, r.2)
    | (Except.ok msgs, pos') =>
      let r := runJobLoop mexp m fusion draws rest pos'
      (WOutput.success msgs :: r.1, r.2)

/-! ### Concrete engine scenarios -/

/-- Trivial exponential interpretation for runs that never reach the
stochastic branch. -/
def mexp0 : Int → Q := fun _ => Q0

/-- Trivial sample stream for runs that never draw. -/
def zeroDraws : Nat → Q := fun _ => Q0

/-- Configuration for the C5 deterministic scenario (sensors A,B,C are ids
0,1,2; two simultaneously active sites required). -/
def c5Fusion : FusionModel := ⟨0, 0, 0, 0, 0, false, 0, 0, 2⟩

/-- See `c5Fusion`. -/
def c5Model : SimModel := ⟨[], [], [], "", 1, Q0, Q0⟩

/-- The C5 scenario events: Activate(A, 5), Activate(B, 5),
Activate(C, 7). -/
def c5Events : List ActEvent :=
  [⟨0, "v", 5, true⟩, ⟨1, "v", 5, true⟩, ⟨2, "v", 7, true⟩]

/-- Payload of the C8 archive: four legacy integer blocks of two
iterations each. -/
def c8Buffer : List Nat :=
  leBytes 4 0 ++ leBytes 4 2 ++ leBytes 4 0 ++ leBytes 4 2 ++
  leBytes 4 0 ++ leBytes 4 1 ++ leBytes 4 0 ++ leBytes 4 2

/-- The C8 archive: sensor-site traces for vesicles 01 and 02 (both
activate at iteration 1), and calcium-channel traces giving vesicle 01
only one bound ion at the release iteration (a charge-carrier shortfall)
but vesicle 02 two. -/
def c8Archive : MCellData :=
  { emptyMCellData with
      buffer := c8Buffer
      api := API1
      blockSize := 2
      numBlocks := 4
      blockNames := ["01_sensor_01.0001.dat", "02_sensor_01.0001.dat",
                     "vesicle_01_ca_A.0001.dat", "vesicle_02_ca_A.0001.dat"]
      blockNameMap := [("01_sensor_01.0001.dat", 0), ("02_sensor_01.0001.dat", 1),
                       ("vesicle_01_ca_A.0001.dat", 2), ("vesicle_02_ca_A.0001.dat", 3)]
      blockEntries := [⟨0, 0, 8⟩, ⟨0, 8, 16⟩, ⟨0, 16, 24⟩, ⟨0, 24, 32⟩]
      offset := 0 }

/-- One synaptotagmin sensor on site 1; vesicles 01 and 02. -/
def c8Model : SimModel :=
  { caSensors := [⟨[1], SytSite⟩]
    vesicleIDs := ["01", "02"]
    vgccVesicleMap := []
    sensorTemplate := "%s_%s_%02d.%04d.dat"
    numPulses := 1
    isiValue := Q0
    pulseDuration := Q0 }

/-- `c8Model` restricted to the sibling vesicle 02 alone. -/
def c8Model02 : SimModel := { c8Model with vesicleIDs := ["02"] }

/-- Deterministic policy, one active site required, activation threshold
two bound sites. -/
def c8Fusion : FusionModel := ⟨1, 0, 2, 0, 0, false, 0, 0, 1⟩

/-- Sample stream of the C3 scenario: the first draw accepts against
`exp(-1)`, every later draw rejects. -/
def c3draws : Nat → Q := fun i => if i = 0 then ⟨1, 5⟩ else ⟨9, 10⟩

/-- Exponential interpretation of the C3 scenario: `367/1000` at `-1`
(the true `exp(-1)` is `0.3678…`) and `10^-6` elsewhere (the run's only
other argument is `-40`; `exp(-40) ≈ 4.25e-18`).  The scenario's draws
compare against these values exactly as they would against the true
exponentials. -/
def c3mexp : Int → Q := fun z => if z = -1 then ⟨367, 1000⟩ else ⟨1, 1000000⟩

/-- A second sample stream agreeing with `c3draws` at position 0 only. -/
def c3drawsAlt : Nat → Q := fun i => if i = 0 then ⟨1, 5⟩ else Q0

/-- An exponential interpretation that is 1 everywhere: the acceptance
probability `exp(energy - fusionEnergy)` then violates the `prob >= 1`
bound of `checkForRelease`, which answers with its fatal error. -/
def c8pmexp : Int → Q := fun _ => QofNat 1

/-- Payload of the C3 archive: the sensor trace `[2, 0, 0]` (activation at
iteration 0, deactivation at 1) and the calcium trace `[2, 0, 0]`. -/
def c3Buffer : List Nat :=
  leBytes 4 2 ++ leBytes 4 0 ++ leBytes 4 0 ++ leBytes 4 2 ++ leBytes 4 0 ++ leBytes 4 0

/-- The C3 archive (legacy integer blocks, three iterations). -/
def c3Archive : MCellData :=
  { emptyMCellData with
      buffer := c3Buffer
      api := API1
      blockSize := 3
      numBlocks := 2
      blockNames := ["01_sensor_01.0001.dat", "vesicle_01_ca_A.0001.dat"]
      blockNameMap := [("01_sensor_01.0001.dat", 0), ("vesicle_01_ca_A.0001.dat", 1)]
      blockEntries := [⟨0, 0, 12⟩, ⟨0, 12, 24⟩]
      offset := 0 }

/-- One synaptotagmin sensor, one vesicle. -/
def c3Model : SimModel :=
  { caSensors := [⟨[1], SytSite⟩]
    vesicleIDs := ["01"]
    vgccVesicleMap := []
    sensorTemplate := "%s_%s_%02d.%04d.dat"
    numPulses := 1
    isiValue := Q0
    pulseDuration := Q0 }

/-- Energy model: an active synaptotagmin contributes 39 against a fusion
threshold of 40, so the acceptance branch is exercised. -/
def c3Fusion : FusionModel := ⟨1, 0, 2, 0, 40, true, 39, 0, 0⟩

/-- C5: under the deterministic policy, a release fires iff the number of
currently active sensors equals `numActiveSites` exactly, and the
`ReleaseEvent` carries the current iteration index and exactly the current
active-sensor id set; and in the A,B,C scenario — two required, events
Activate(A,5), Activate(B,5), Activate(C,7) — the full release extraction
fires at iteration 5 with active set {A, B}. -/
theorem c5_deterministic_policy :
    (∀ (vesID : String) (n : Int) (evt : ActEvent) (active : Finset Nat),
        (∃ rel, checkForDeterministicRelease vesID n evt active = some rel)
          ↔ (active.card : Int) = n) ∧
    (∀ (vesID : String) (n : Int) (evt : ActEvent) (active : Finset Nat)
        (rel : ReleaseEvent),
        checkForDeterministicRelease vesID n evt active = some rel →
          rel.sensors = active ∧ rel.vesicleID = vesID ∧ rel.eventIter = evt.eventIter) ∧
    extractReleaseEvents mexp0 c5Events c5Model c5Fusion 10 "v" zeroDraws 0
      = (Except.ok (some ⟨{0, 1}, "v", 5⟩), 0) := by
  refine ⟨?_, ?_, by decide⟩
  · intro vesID n evt active
    constructor
    · rintro ⟨rel, hrel⟩
      by_contra h
      rw [checkForDeterministicRelease, if_neg h] at hrel
      exact Option.noConfusion hrel
    · intro h
      exact ⟨_, by rw [checkForDeterministicRelease, if_pos h]⟩
  · intro vesID n evt active rel hrel
    rw [checkForDeterministicRelease] at hrel
    by_cases h : (active.card : Int) = n
    · rw [if_pos h] at hrel
      cases hrel
      exact ⟨rfl, rfl, rfl⟩
    · rw [if_neg h] at hrel
      exact Option.noConfusion hrel

/-- Witness for the C5 theorem: its release-shape implication applied at
the scenario's release point. -/
theorem c5_deterministic_policy_witness :
    (⟨{0, 1}, "v", 5⟩ : ReleaseEvent).sensors = ({0, 1} : Finset Nat) ∧
    (⟨{0, 1}, "v", 5⟩ : ReleaseEvent).vesicleID = "v" ∧
    (⟨{0, 1}, "v", 5⟩ : ReleaseEvent).eventIter = (⟨1, "v", 5, true⟩ : ActEvent).eventIter :=
  c5_deterministic_policy.2.1 "v" 2 ⟨1, "v", 5, true⟩ {0, 1} ⟨{0, 1}, "v", 5⟩ (by decide)

/-- C8 counterexample: on `c8Archive`, vesicle 01's charge-carrier
shortfall (1 bound ion where its active synaptotagmin implies 2) does not
stay contained to that entity: the whole archive's analysis dies in
`log.Fatal` and produces nothing, although the sibling vesicle 02 —
analyzed on its own — yields its release result. -/
theorem c8_counterexample :
    (analyze mexp0 c8Archive c8Model c8Fusion zeroDraws 0 1).1
      = Except.error (RErr.fatal
          "The number of bound Ca ions (1) is smaller than expected based on the activation status (2)") ∧
    (analyze mexp0 c8Archive c8Model02 c8Fusion zeroDraws 0 1).1
      = Except.ok [⟨1, "02", Q0, "1", {0}, [("A", 2)], 2, "NA", 1⟩] :=
  ⟨by decide, by decide⟩

/-- C3 counterexample: `runJob` creates one generator per worker (seeded
from the wall clock) and shares it across every archive the worker
processes, so two analyses of the identical configuration, archive and
filename seed within one worker diverge: the first job's analysis
consumes the accepting draw and reports a release, the second job, starting
deeper in the shared stream, reports none.  The two `c3mexp` values the
runs evaluate lie strictly between 0 and 1, as the true exponentials do,
and the draws compare against them exactly as against the true
exponentials. -/
theorem c3_counterexample :
    runJobLoop c3mexp c3Model c3Fusion c3draws [(c3Archive, 1), (c3Archive, 1)] 0
      = ([WOutput.success [⟨1, "01", Q0, "1", {0}, [("A", 2)], 2, "NA", 1⟩],
          WOutput.success []], none) ∧
    (Qlt Q0 (c3mexp (-1)) ∧ Qlt (c3mexp (-1)) (QofNat 1)) ∧
    (Qlt Q0 (c3mexp (-40)) ∧ Qlt (c3mexp (-40)) (QofNat 1)) ∧
    WOutput.success [(⟨1, "01", Q0, "1", {0}, [("A", 2)], 2, "NA", 1⟩ : RelMsg)]
      ≠ WOutput.success [] := by
  exact ⟨by decide, by decide, by decide, by decide⟩

/-! ### General properties of the analysis loops -/

lemma runJobLoop_length (mexp : Int → Q) (m : SimModel) (fusion : FusionModel)
    (draws : Nat → Q) :
    ∀ (jobs : List (MCellData × Int)) (pos : Nat),
      (runJobLoop mexp m fusion draws jobs pos).2 = none →
      (runJobLoop mexp m fusion draws jobs pos).1.length = jobs.length := by
  intro jobs
  induction jobs with
  | nil => intro pos _; rfl
  | cons j rest ih =>
    intro pos hnone
    obtain ⟨data, seed⟩ := j
    simp only [runJobLoop] at hnone ⊢
    rcases h : analyze mexp data m fusion draws pos seed with ⟨res, pos'⟩
    rw [h] at hnone
    rcases res with e | msgs
    · rcases e with msg | msg
      · simpa using ih pos' (by simpa using hnone)
      · simp at hnone
    · simpa using ih pos' (by simpa using hnone)

lemma analyzeLoop_error_of_extract_error (mexp : Int → Q) (data : MCellData)
    (m : SimModel) (fusion : FusionModel) (draws : Nat → Q) (seed : Int) :
    ∀ (vs : List String) (pos : Nat) (v : String), v ∈ vs →
      (∃ e, extractActivationEvents data m fusion seed v = Except.error e) →
      ∃ e', (analyzeLoop mexp data m fusion draws seed vs pos).1 = Except.error e' := by
  intro vs
  induction vs with
  | nil => intro pos v hv; cases hv
  | cons u rest ih =>
    rintro pos v hv ⟨e, he⟩
    simp only [analyzeLoop]
    rcases hu : extractActivationEvents data m fusion seed u with eu | evts
    · exact ⟨eu, rfl⟩
    · simp only []
      cases hv with
      | head => rw [hu] at he; exact absurd he (by simp)
      | tail _ hvtail =>
        by_cases hemp : evts.isEmpty = true
        · rw [if_pos hemp]
          exact ih pos v hvtail ⟨e, he⟩
        · rw [if_neg hemp]
          rcases hrel : extractReleaseEvents mexp evts m fusion data.blockSize u draws pos
            with ⟨res, pos'⟩
          rcases res with er | orel
          · exact ⟨er, rfl⟩
          · simp only []
            obtain ⟨e', he'⟩ := ih pos' v hvtail ⟨e, he⟩
            rcases hloop : analyzeLoop mexp data m fusion draws seed rest pos'
              with ⟨res2, posF⟩
            rw [hloop] at he'
            rcases res2 with e2 | rels2
            · exact ⟨e2, rfl⟩
            · exact absurd he' (by simp)

lemma analyzeLoop_release_error (mexp : Int → Q) (data : MCellData) (m : SimModel)
    (fusion : FusionModel) (draws : Nat → Q) (seed : Int) (v : String)
    (rest : List String) (pos p' : Nat) (evts : List ActEvent) (er : RErr)
    (hx : extractActivationEvents data m fusion seed v = Except.ok evts)
    (hne : evts.isEmpty = false)
    (hrel : extractReleaseEvents mexp evts m fusion data.blockSize v draws pos
      = (Except.error er, p')) :
    analyzeLoop mexp data m fusion draws seed (v :: rest) pos = (Except.error er, p') := by
  have hne' : ¬(evts.isEmpty = true) := by
    rw [hne]
    exact Bool.false_ne_true
  simp only [analyzeLoop, hx, if_neg hne', hrel]

/-- C8 (amended): error containment lives at the archive boundary, not the
entity boundary.  An invariant violation surfaced by one entity's
activation or release extraction aborts the whole archive's `analyze` with
that error — sibling entities of the same archive produce no results.  The
release-engine violations themselves: an inconsistent activation state
aborts the entity's event loop at once, an out-of-order release evaluation
answers with its invariant error, and both surface as the
release-extraction error the archive-abort conjunct consumes.  At the
orchestration boundary a worker maps every archive to exactly one output,
failed archives reported by their error alongside the other archives'
results, provided no `log.Fatal` fires; an archive whose analysis reaches
a fatal error (acceptance probability at least 1, or the charge-carrier
shortfall) instead terminates the whole worker process, which produces no
output at all. -/
theorem c8_error_containment :
    (∀ (mexp : Int → Q) (m : SimModel) (fusion : FusionModel) (draws : Nat → Q)
        (jobs : List (MCellData × Int)) (pos : Nat),
        (runJobLoop mexp m fusion draws jobs pos).2 = none →
        (runJobLoop mexp m fusion draws jobs pos).1.length = jobs.length) ∧
    (∀ (mexp : Int → Q) (data : MCellData) (m : SimModel) (fusion : FusionModel)
        (draws : Nat → Q) (seed : Int) (pos : Nat) (v : String),
        v ∈ m.vesicleIDs →
        (∃ e, extractActivationEvents data m fusion seed v = Except.error e) →
        ∃ e', (analyzeLoop mexp data m fusion draws seed m.vesicleIDs pos).1
            = Except.error e') ∧
    (∀ (mexp : Int → Q) (data : MCellData) (m : SimModel) (fusion : FusionModel)
        (draws : Nat → Q) (seed : Int) (pos p' : Nat) (v : String) (rest : List String)
        (evts : List ActEvent) (er : RErr),
        m.vesicleIDs = v :: rest →
        extractActivationEvents data m fusion seed v = Except.ok evts →
        evts.isEmpty = false →
        extractReleaseEvents mexp evts m fusion data.blockSize v draws pos
          = (Except.error er, p') →
        (analyze mexp data m fusion draws pos seed).1 = Except.error er) ∧
    (∀ (mexp : Int → Q) (model : SimModel) (fusion : FusionModel) (maxIter : Nat)
        (vesID : String) (draws : Nat → Q) (ev : ActEvent) (rest : List ActEvent)
        (active : Finset Nat) (pos : Nat) (er : RErr),
        applyEvent active ev = Except.error er →
        extractLoop mexp model fusion maxIter vesID draws (ev :: rest) active pos
          = (Except.error er, pos)) ∧
    (∀ (mexp : Int → Q) (fE en : Int) (vesID : String) (evt : ActEvent)
        (active : Finset Nat) (nxt : Nat) (draws : Nat → Q) (pos : Nat),
        nxt < evt.eventIter →
        checkForEnergyRelease mexp fE en vesID evt active nxt draws pos
          = (Except.error (RErr.err "encountered out of order release event"), pos)) ∧
    (∀ (mexp : Int → Q) (m : SimModel) (fusion : FusionModel) (draws : Nat → Q)
        (data : MCellData) (seed : Int) (rest : List (MCellData × Int)) (pos : Nat)
        (msg : String),
        (analyze mexp data m fusion draws pos seed).1 = Except.error (RErr.fatal msg) →
        runJobLoop mexp m fusion draws ((data, seed) :: rest) pos = ([], some msg)) := by
  refine ⟨fun mexp m fusion draws jobs pos h =>
      runJobLoop_length mexp m fusion draws jobs pos h,
    fun mexp data m fusion draws seed pos v hv he =>
      analyzeLoop_error_of_extract_error mexp data m fusion draws seed
        m.vesicleIDs pos v hv he,
    ?_, ?_, ?_, ?_⟩
  · intro mexp data m fusion draws seed pos p2 v rest evts er hves hx hne hrel
    have hl := analyzeLoop_release_error mexp data m fusion draws seed v rest pos p2
      evts er hx hne hrel
    rw [← hves] at hl
    simp only [analyze, hl]
  · intro mexp model fusion maxIter vesID draws ev rest active pos er h
    simp only [extractLoop, h]
  · intro mexp fE en vesID evt active nxt draws pos h
    simp only [checkForEnergyRelease, if_pos h]
  · intro mexp m fusion draws data seed rest pos msg hfat
    rcases ha : analyze mexp data m fusion draws pos seed with ⟨res, p2⟩
    have hres : res = Except.error (RErr.fatal msg) := by
      rw [ha] at hfat
      exact hfat
    subst hres
    simp only [runJobLoop, ha]

/-- Witness for the amended C8 theorem: a worker run of two archives with
no fatality yields two outputs; an archive whose first entity's extraction
fails (its sensor dataset is missing) analyzes to an error as a whole; an
archive whose only entity's release evaluation violates the
acceptance-probability bound analyzes to that fatal error as a whole; an
inconsistent activation event aborts the event loop at once; a next-event
iteration below the current one answers the out-of-order error; and a
batch whose first archive analyzes to the charge-carrier-shortfall fatal
produces no output for any archive. -/
theorem c8_error_containment_witness :
    (runJobLoop c3mexp c3Model c3Fusion c3draws [(c3Archive, 1), (c3Archive, 1)] 0).1.length
      = [(c3Archive, 1), (c3Archive, 1)].length ∧
    (∃ e', (analyzeLoop mexp0 emptyMCellData c8Model c8Fusion zeroDraws 1
        c8Model.vesicleIDs 0).1 = Except.error e') ∧
    (analyze c8pmexp c3Archive c3Model c3Fusion zeroDraws 0 1).1
      = Except.error (RErr.fatal "probability out of bounds") ∧
    extractLoop mexp0 c3Model c3Fusion 3 "01" zeroDraws [⟨0, "01", 3, true⟩] {0} 0
      = (Except.error (RErr.err "trying to add active event that already exists"), 0) ∧
    checkForEnergyRelease mexp0 0 0 "01" ⟨0, "01", 1, true⟩ {0} 0 zeroDraws 0
      = (Except.error (RErr.err "encountered out of order release event"), 0) ∧
    runJobLoop mexp0 c8Model c8Fusion zeroDraws [(c8Archive, 1), (c8Archive, 1)] 0
      = ([], some "The number of bound Ca ions (1) is smaller than expected based on the activation status (2)") :=
  ⟨c8_error_containment.1 c3mexp c3Model c3Fusion c3draws
      [(c3Archive, 1), (c3Archive, 1)] 0 (by decide),
   c8_error_containment.2.1 mexp0 emptyMCellData c8Model c8Fusion zeroDraws 1 0 "01"
      (by decide)
      ⟨RErr.err "dataset 01_sensor_01.0001.dat not found", by decide⟩,
   c8_error_containment.2.2.1 c8pmexp c3Archive c3Model c3Fusion zeroDraws 1 0 0 "01" []
      [⟨0, "01", 0, true⟩, ⟨0, "01", 1, false⟩] (RErr.fatal "probability out of bounds")
      (by decide) (by decide) (by decide) (by decide),
   c8_error_containment.2.2.2.1 mexp0 c3Model c3Fusion 3 "01" zeroDraws ⟨0, "01", 3, true⟩
      [] {0} 0 (RErr.err "trying to add active event that already exists") (by decide),
   c8_error_containment.2.2.2.2.1 mexp0 0 0 "01" ⟨0, "01", 1, true⟩ {0} 0 zeroDraws 0
      (by decide),
   c8_error_containment.2.2.2.2.2 mexp0 c8Model c8Fusion zeroDraws c8Archive 1
      [(c8Archive, 1)] 0
      "The number of bound Ca ions (1) is smaller than expected based on the activation status (2)"
      (by decide)⟩

lemma checkForDeterministicRelease_some_vesID (vesID : String) (n : Int) (evt : ActEvent)
    (active : Finset Nat) (rel : ReleaseEvent)
    (h : checkForDeterministicRelease vesID n evt active = some rel) :
    rel.vesicleID = vesID := by
  rw [checkForDeterministicRelease] at h
  by_cases hc : (active.card : Int) = n
  · rw [if_pos hc] at h; cases h; rfl
  · rw [if_neg hc] at h; exact absurd h (by simp)

lemma checkForEnergyRelease_some_vesID (mexp : Int → Q) (fusionEnergy energy : Int)
    (vesID : String) (evt : ActEvent) (active : Finset Nat) (nextEvtIter : Nat)
    (draws : Nat → Q) (pos : Nat) (rel : ReleaseEvent) (p' : Nat)
    (h : checkForEnergyRelease mexp fusionEnergy energy vesID evt active nextEvtIter draws pos
        = (Except.ok (some rel), p')) :
    rel.vesicleID = vesID := by
  rw [checkForEnergyRelease] at h
  by_cases hlt : nextEvtIter < evt.eventIter
  · rw [if_pos hlt] at h; simp at h
  · rw [if_neg hlt] at h
    rcases hcr : checkForRelease mexp fusionEnergy energy (nextEvtIter - evt.eventIter)
        draws pos with ⟨res, pp⟩
    rw [hcr] at h
    rcases res with er | o
    · simp at h
    · rcases o with _ | i
      · simp at h
      · simp only [Prod.mk.injEq, Except.ok.injEq, Option.some.injEq] at h
        rw [← h.1]

lemma extractLoop_some_vesID (mexp : Int → Q) (model : SimModel) (fusion : FusionModel)
    (maxIter : Nat) (vesID : String) (draws : Nat → Q) :
    ∀ (evts : List ActEvent) (active : Finset Nat) (pos : Nat) (rel : ReleaseEvent)
      (p' : Nat),
      extractLoop mexp model fusion maxIter vesID draws evts active pos
        = (Except.ok (some rel), p') → rel.vesicleID = vesID := by
  intro evts
  induction evts with
  | nil => intro active pos rel p' h; simp [extractLoop] at h
  | cons e rest ih =>
    intro active pos rel p' h
    simp only [extractLoop] at h
    rcases hap : applyEvent active e with er | active'
    · rw [hap] at h; simp at h
    · rw [hap] at h
      simp only [] at h
      by_cases htie : (rest.head?.any fun nx => nx.eventIter = e.eventIter) = true
      · rw [if_pos htie] at h
        exact ih _ _ _ _ h
      · rw [if_neg htie] at h
        by_cases hen : fusion.energyModel = true
        · rw [if_pos hen] at h
          rcases hcer : checkForEnergyRelease mexp fusion.vesicleFusionEnergy
              (getEnergy model.caSensors active' fusion.sytEnergy fusion.yEnergy) vesID e
              active' (getNextEvtIter maxIter rest) draws pos
            with ⟨res, pp⟩
          rw [hcer] at h
          rcases res with er | orel
          · simp at h
          · rcases orel with _ | rel0
            · simp only [] at h
              exact ih _ _ _ _ h
            · simp only [Prod.mk.injEq, Except.ok.injEq, Option.some.injEq] at h
              rw [← h.1]
              exact checkForEnergyRelease_some_vesID _ _ _ _ _ _ _ _ _ _ _ hcer
        · rw [if_neg hen] at h
          rcases hdet : checkForDeterministicRelease vesID fusion.numActiveSites e active'
            with _ | rel0
          · rw [hdet] at h
            simp only [] at h
            exact ih _ _ _ _ h
          · rw [hdet] at h
            simp only [Prod.mk.injEq, Except.ok.injEq, Option.some.injEq] at h
            rw [← h.1]
            exact checkForDeterministicRelease_some_vesID _ _ _ _ _ hdet

lemma nodup_filter_eq_le_one {α : Type} [DecidableEq α] :
    ∀ (l : List α), l.Nodup → ∀ v, (l.filter fun u => u = v).length ≤ 1 := by
  intro l
  induction l with
  | nil => intro _ v; simp
  | cons a l ih =>
    intro hnd v
    rw [List.filter_cons]
    by_cases ha : a = v
    · subst ha
      have hzero : (l.filter fun u => u = a).length = 0 := by
        rw [List.length_eq_zero]
        rw [List.filter_eq_nil_iff]
        intro u hu
        simp only [decide_eq_true_eq]
        intro hua
        exact (List.nodup_cons.mp hnd).1 (hua ▸ hu)
      simp [hzero]
    · have : (decide (a = v)) = false := by simpa using ha
      rw [this]
      simpa using ih (List.nodup_cons.mp hnd).2 v

lemma analyzeLoop_count (mexp : Int → Q) (data : MCellData) (m : SimModel)
    (fusion : FusionModel) (draws : Nat → Q) (seed : Int) :
    ∀ (vs : List String) (pos : Nat) (rels : List ReleaseEvent) (posF : Nat),
      analyzeLoop mexp data m fusion draws seed vs pos = (Except.ok rels, posF) →
      (∀ v, (rels.filter fun r => r.vesicleID = v).length
          ≤ (vs.filter fun u => u = v).length) ∧
      ∀ rel ∈ rels, rel.vesicleID ∈ vs := by
  intro vs
  induction vs with
  | nil =>
    intro pos rels posF h
    simp only [analyzeLoop, Prod.mk.injEq, Except.ok.injEq] at h
    rw [← h.1]
    exact ⟨fun v => by simp, by simp⟩
  | cons u rest ih =>
    intro pos rels posF h
    simp only [analyzeLoop] at h
    rcases hex : extractActivationEvents data m fusion seed u with e | evts
    · rw [hex] at h; simp at h
    · rw [hex] at h
      simp only [] at h
      by_cases hemp : evts.isEmpty = true
      · rw [if_pos hemp] at h
        obtain ⟨hcount, hmem⟩ := ih pos rels posF h
        refine ⟨fun v => ?_, fun rel hrel => List.mem_cons_of_mem _ (hmem rel hrel)⟩
        refine le_trans (hcount v) ?_
        rw [List.filter_cons]
        by_cases hu : u = v <;> simp [hu]
      · rw [if_neg hemp] at h
        rcases hrel : extractReleaseEvents mexp evts m fusion data.blockSize u draws pos
          with ⟨res, pos'⟩
        rw [hrel] at h
        rcases res with er | orel
        · simp at h
        · simp only [] at h
          rcases hloop : analyzeLoop mexp data m fusion draws seed rest pos'
            with ⟨res2, posF2⟩
          rw [hloop] at h
          rcases res2 with e2 | rels2
          · simp at h
          · simp only [Prod.mk.injEq, Except.ok.injEq] at h
            obtain ⟨hcount, hmem⟩ := ih pos' rels2 posF2 hloop
            rcases orel with _ | rel0
            · rw [← h.1]
              simp only [List.nil_append]
              refine ⟨fun v => ?_, fun rel hrel => List.mem_cons_of_mem _ (hmem rel hrel)⟩
              refine le_trans (hcount v) ?_
              rw [List.filter_cons]
              by_cases hu : u = v <;> simp [hu]
            · have hves : rel0.vesicleID = u := by
                have := hrel
                rw [extractReleaseEvents] at this
                exact extractLoop_some_vesID mexp m fusion data.blockSize u draws
                  _ _ _ _ _ this
              rw [← h.1]
              simp only [List.singleton_append]
              constructor
              · intro v
                rw [List.filter_cons, List.filter_cons]
                by_cases hu : u = v
                · have : (decide (rel0.vesicleID = v)) = true := by
                    simp [hves, hu]
                  simp only [this, hu, ite_true, List.length_cons]
                  simpa using hcount v
                · have : (decide (rel0.vesicleID = v)) = false := by
                    simp [hves, hu]
                  simp only [this, show (decide (u = v)) = false by simpa using hu,
                    ite_false]
                  exact hcount v
              · intro rel hrel
                cases hrel with
                | head => exact hves ▸ List.mem_cons_self u rest
                | tail _ hrel2 => exact List.mem_cons_of_mem _ (hmem _ hrel2)

/-- C9: for every entity and archive the release engine produces at most
one `ReleaseEvent` — every release collected by `analyze`'s vesicle loop
carries the vesicle id it was produced for, so with a duplicate-free
vesicle list each entity contributes at most one release (the per-entity
extraction returns at most one release by construction: the first accepted
release returns immediately, and an entity whose events never satisfy the
policy contributes `none`). -/
theorem c9_at_most_one_release (mexp : Int → Q) (data : MCellData) (m : SimModel)
    (fusion : FusionModel) (draws : Nat → Q) (seed : Int) (pos : Nat)
    (rels : List ReleaseEvent) (posF : Nat) (hnd : m.vesicleIDs.Nodup)
    (hok : analyzeLoop mexp data m fusion draws seed m.vesicleIDs pos
        = (Except.ok rels, posF)) :
    (∀ v, (rels.filter fun r => r.vesicleID = v).length ≤ 1) ∧
    ∀ rel ∈ rels, rel.vesicleID ∈ m.vesicleIDs := by
  obtain ⟨hcount, hmem⟩ := analyzeLoop_count mexp data m fusion draws seed
    m.vesicleIDs pos rels posF hok
  exact ⟨fun v => le_trans (hcount v) (nodup_filter_eq_le_one m.vesicleIDs hnd v), hmem⟩

/-- Witness for the C9 theorem: the two-vesicle deterministic archive
`c8Archive`, whose loop collects exactly one release per vesicle. -/
theorem c9_at_most_one_release_witness :
    (∀ v, (([⟨{0}, "01", 1⟩, ⟨{0}, "02", 1⟩] : List ReleaseEvent).filter
        fun r => r.vesicleID = v).length ≤ 1) ∧
    ∀ rel ∈ ([⟨{0}, "01", 1⟩, ⟨{0}, "02", 1⟩] : List ReleaseEvent),
      rel.vesicleID ∈ c8Model.vesicleIDs :=
  c9_at_most_one_release mexp0 c8Archive c8Model c8Fusion zeroDraws 1 0
    [⟨{0}, "01", 1⟩, ⟨{0}, "02", 1⟩] 0 (by decide) (by decide)


/-! ### Generator-prefix determinism

The stochastic engine consumes samples at consecutive positions.  The
lemmas below show the generator position never moves backwards and that
the analysis of one archive depends on the sample stream only through
the window of positions the run consumes. -/

lemma releaseScanAux_mono (draws : Nat → Q) (prob : Q) :
    ∀ (n i pos : Nat), pos ≤ (releaseScanAux draws prob i pos n).2 := by
  intro n
  induction n with
  | zero => intro i pos; exact le_refl pos
  | succ k ih =>
    intro i pos
    simp only [releaseScanAux]
    by_cases h : Qlt (draws pos) prob
    · simp only [if_pos h]
      exact Nat.le_succ pos
    · simp only [if_neg h]
      exact le_trans (Nat.le_succ pos) (ih (i + 1) (pos + 1))

lemma releaseScanAux_congr (draws1 draws2 : Nat → Q) (prob : Q) :
    ∀ (n i pos : Nat),
      (∀ j, pos ≤ j → j < (releaseScanAux draws1 prob i pos n).2 → draws1 j = draws2 j) →
      releaseScanAux draws2 prob i pos n = releaseScanAux draws1 prob i pos n := by
  intro n
  induction n with
  | zero => intro i pos _; rfl
  | succ k ih =>
    intro i pos hag
    have hag0 : draws1 pos = draws2 pos := by
      refine hag pos (le_refl pos) ?_
      simp only [releaseScanAux]
      by_cases h : Qlt (draws1 pos) prob
      · simp only [if_pos h]
        exact Nat.lt_succ_self pos
      · simp only [if_neg h]
        exact lt_of_lt_of_le (Nat.lt_succ_self pos)
          (releaseScanAux_mono draws1 prob k (i + 1) (pos + 1))
    simp only [releaseScanAux, ← hag0]
    by_cases h : Qlt (draws1 pos) prob
    · simp only [if_pos h]
    · simp only [if_neg h]
      refine ih (i + 1) (pos + 1) fun j hj1 hj2 => hag j (le_trans (Nat.le_succ pos) hj1) ?_
      simp only [releaseScanAux, if_neg h]
      exact hj2

lemma checkForRelease_mono (mexp : Int → Q) (fE en : Int) (n : Nat) (draws : Nat → Q)
    (pos : Nat) : pos ≤ (checkForRelease mexp fE en n draws pos).2 := by
  simp only [checkForRelease]
  by_cases h1 : fE ≤ en
  · simp only [if_pos h1]
    exact le_refl pos
  · simp only [if_neg h1]
    by_cases h2 : Qle (QofNat 1) (mexp (en - fE))
    · simp only [if_pos h2]
      exact le_refl pos
    · simp only [if_neg h2]
      exact releaseScanAux_mono draws (mexp (en - fE)) n 0 pos

lemma checkForRelease_congr (mexp : Int → Q) (fE en : Int) (n : Nat)
    (draws1 draws2 : Nat → Q) (pos : Nat)
    (hag : ∀ j, pos ≤ j → j < (checkForRelease mexp fE en n draws1 pos).2 →
      draws1 j = draws2 j) :
    checkForRelease mexp fE en n draws2 pos = checkForRelease mexp fE en n draws1 pos := by
  simp only [checkForRelease] at hag ⊢
  by_cases h1 : fE ≤ en
  · simp only [if_pos h1]
  · simp only [if_neg h1] at hag ⊢
    by_cases h2 : Qle (QofNat 1) (mexp (en - fE))
    · simp only [if_pos h2]
    · simp only [if_neg h2] at hag ⊢
      rw [releaseScanAux_congr draws1 draws2 (mexp (en - fE)) n 0 pos hag]

lemma checkForEnergyRelease_mono (mexp : Int → Q) (fE en : Int) (vesID : String)
    (evt : ActEvent) (active : Finset Nat) (nxt : Nat) (draws : Nat → Q) (pos : Nat) :
    pos ≤ (checkForEnergyRelease mexp fE en vesID evt active nxt draws pos).2 := by
  simp only [checkForEnergyRelease]
  by_cases hlt : nxt < evt.eventIter
  · simp only [if_pos hlt]
    exact le_refl pos
  · simp only [if_neg hlt]
    have h0 := checkForRelease_mono mexp fE en (nxt - evt.eventIter) draws pos
    rcases hcr : checkForRelease mexp fE en (nxt - evt.eventIter) draws pos with ⟨res, pp⟩
    rw [hcr] at h0
    rcases res with er | o
    · exact h0
    · rcases o with _ | i
      · exact h0
      · exact h0

lemma checkForEnergyRelease_congr (mexp : Int → Q) (fE en : Int) (vesID : String)
    (evt : ActEvent) (active : Finset Nat) (nxt : Nat) (draws1 draws2 : Nat → Q)
    (pos : Nat)
    (hag : ∀ j, pos ≤ j →
      j < (checkForEnergyRelease mexp fE en vesID evt active nxt draws1 pos).2 →
      draws1 j = draws2 j) :
    checkForEnergyRelease mexp fE en vesID evt active nxt draws2 pos
      = checkForEnergyRelease mexp fE en vesID evt active nxt draws1 pos := by
  simp only [checkForEnergyRelease] at hag ⊢
  by_cases hlt : nxt < evt.eventIter
  · simp only [if_pos hlt]
  · simp only [if_neg hlt] at hag ⊢
    have hcr2 : checkForRelease mexp fE en (nxt - evt.eventIter) draws2 pos
        = checkForRelease mexp fE en (nxt - evt.eventIter) draws1 pos := by
      refine checkForRelease_congr mexp fE en (nxt - evt.eventIter) draws1 draws2 pos
        fun j hj1 hj2 => hag j hj1 ?_
      rcases hcr : checkForRelease mexp fE en (nxt - evt.eventIter) draws1 pos with ⟨res, pp⟩
      rw [hcr] at hj2
      rcases res with er | o
      · exact hj2
      · rcases o with _ | i
        · exact hj2
        · exact hj2
    rw [hcr2]

lemma extractLoop_mono (mexp : Int → Q) (model : SimModel) (fusion : FusionModel)
    (maxIter : Nat) (vesID : String) (draws : Nat → Q) :
    ∀ (evts : List ActEvent) (active : Finset Nat) (pos : Nat),
      pos ≤ (extractLoop mexp model fusion maxIter vesID draws evts active pos).2 := by
  intro evts
  induction evts with
  | nil => intro active pos; exact le_refl pos
  | cons e rest ih =>
    intro active pos
    rcases hap : applyEvent active e with er | active'
    · simp only [extractLoop, hap]
      exact le_refl pos
    · by_cases htie : (rest.head?.any fun nx => nx.eventIter = e.eventIter) = true
      · simp only [extractLoop, hap, if_pos htie]
        exact ih active' pos
      · by_cases hen : fusion.energyModel = true
        · rcases hcer : checkForEnergyRelease mexp fusion.vesicleFusionEnergy
              (getEnergy model.caSensors active' fusion.sytEnergy fusion.yEnergy) vesID e
              active' (getNextEvtIter maxIter rest) draws pos with ⟨res, pp⟩
          have hp : pos ≤ pp := by
            have h0 := checkForEnergyRelease_mono mexp fusion.vesicleFusionEnergy
              (getEnergy model.caSensors active' fusion.sytEnergy fusion.yEnergy) vesID e
              active' (getNextEvtIter maxIter rest) draws pos
            rw [hcer] at h0
            exact h0
          rcases res with er | orel
          · simp only [extractLoop, hap, if_neg htie, if_pos hen, hcer]
            exact hp
          · rcases orel with _ | rel0
            · simp only [extractLoop, hap, if_neg htie, if_pos hen, hcer]
              exact le_trans hp (ih active' pp)
            · simp only [extractLoop, hap, if_neg htie, if_pos hen, hcer]
              exact hp
        · rcases hdet : checkForDeterministicRelease vesID fusion.numActiveSites e active'
            with _ | rel0
          · simp only [extractLoop, hap, if_neg htie, if_neg hen, hdet]
            exact ih active' pos
          · simp only [extractLoop, hap, if_neg htie, if_neg hen, hdet]
            exact le_refl pos

lemma extractLoop_congr (mexp : Int → Q) (model : SimModel) (fusion : FusionModel)
    (maxIter : Nat) (vesID : String) (draws1 draws2 : Nat → Q) :
    ∀ (evts : List ActEvent) (active : Finset Nat) (pos : Nat),
      (∀ j, pos ≤ j →
        j < (extractLoop mexp model fusion maxIter vesID draws1 evts active pos).2 →
        draws1 j = draws2 j) →
      extractLoop mexp model fusion maxIter vesID draws2 evts active pos
        = extractLoop mexp model fusion maxIter vesID draws1 evts active pos := by
  intro evts
  induction evts with
  | nil => intro active pos _; rfl
  | cons e rest ih =>
    intro active pos hag
    rcases hap : applyEvent active e with er | active'
    · simp only [extractLoop, hap]
    · by_cases htie : (rest.head?.any fun nx => nx.eventIter = e.eventIter) = true
      · have hres : extractLoop mexp model fusion maxIter vesID draws1 (e :: rest) active pos
            = extractLoop mexp model fusion maxIter vesID draws1 rest active' pos := by
          simp only [extractLoop, hap, if_pos htie]
        simp only [extractLoop, hap, if_pos htie]
        exact ih active' pos fun j h1 h2 => hag j h1 (by rw [hres]; exact h2)
      · by_cases hen : fusion.energyModel = true
        · rcases hcer : checkForEnergyRelease mexp fusion.vesicleFusionEnergy
              (getEnergy model.caSensors active' fusion.sytEnergy fusion.yEnergy) vesID e
              active' (getNextEvtIter maxIter rest) draws1 pos with ⟨res, pp⟩
          have hp : pos ≤ pp := by
            have h0 := checkForEnergyRelease_mono mexp fusion.vesicleFusionEnergy
              (getEnergy model.caSensors active' fusion.sytEnergy fusion.yEnergy) vesID e
              active' (getNextEvtIter maxIter rest) draws1 pos
            rw [hcer] at h0
            exact h0
          rcases res with er | orel
          · have hres : extractLoop mexp model fusion maxIter vesID draws1 (e :: rest)
                active pos = (Except.error er, pp) := by
              simp only [extractLoop, hap, if_neg htie, if_pos hen, hcer]
            have hcer2 : checkForEnergyRelease mexp fusion.vesicleFusionEnergy
                (getEnergy model.caSensors active' fusion.sytEnergy fusion.yEnergy) vesID e
                active' (getNextEvtIter maxIter rest) draws2 pos
                = (Except.error er, pp) := by
              rw [checkForEnergyRelease_congr mexp fusion.vesicleFusionEnergy
                (getEnergy model.caSensors active' fusion.sytEnergy fusion.yEnergy) vesID e
                active' (getNextEvtIter maxIter rest) draws1 draws2 pos
                (fun j h1 h2 => hag j h1 (by rw [hres]; rw [hcer] at h2; exact h2))]
              exact hcer
            simp only [extractLoop, hap, if_neg htie, if_pos hen, hcer, hcer2]
          · rcases orel with _ | rel0
            · have hres : extractLoop mexp model fusion maxIter vesID draws1 (e :: rest)
                  active pos
                  = extractLoop mexp model fusion maxIter vesID draws1 rest active' pp := by
                simp only [extractLoop, hap, if_neg htie, if_pos hen, hcer]
              have hcer2 : checkForEnergyRelease mexp fusion.vesicleFusionEnergy
                  (getEnergy model.caSensors active' fusion.sytEnergy fusion.yEnergy) vesID e
                  active' (getNextEvtIter maxIter rest) draws2 pos
                  = (Except.ok none, pp) := by
                rw [checkForEnergyRelease_congr mexp fusion.vesicleFusionEnergy
                  (getEnergy model.caSensors active' fusion.sytEnergy fusion.yEnergy) vesID e
                  active' (getNextEvtIter maxIter rest) draws1 draws2 pos
                  (fun j h1 h2 => hag j h1 (by
                    rw [hres]
                    rw [hcer] at h2
                    exact lt_of_lt_of_le h2
                      (extractLoop_mono mexp model fusion maxIter vesID draws1 rest
                        active' pp)))]
                exact hcer
              simp only [extractLoop, hap, if_neg htie, if_pos hen, hcer, hcer2]
              exact ih active' pp fun j h1 h2 =>
                hag j (le_trans hp h1) (by rw [hres]; exact h2)
            · have hres : extractLoop mexp model fusion maxIter vesID draws1 (e :: rest)
                  active pos = (Except.ok (some rel0), pp) := by
                simp only [extractLoop, hap, if_neg htie, if_pos hen, hcer]
              have hcer2 : checkForEnergyRelease mexp fusion.vesicleFusionEnergy
                  (getEnergy model.caSensors active' fusion.sytEnergy fusion.yEnergy) vesID e
                  active' (getNextEvtIter maxIter rest) draws2 pos
                  = (Except.ok (some rel0), pp) := by
                rw [checkForEnergyRelease_congr mexp fusion.vesicleFusionEnergy
                  (getEnergy model.caSensors active' fusion.sytEnergy fusion.yEnergy) vesID e
                  active' (getNextEvtIter maxIter rest) draws1 draws2 pos
                  (fun j h1 h2 => hag j h1 (by rw [hres]; rw [hcer] at h2; exact h2))]
                exact hcer
              simp only [extractLoop, hap, if_neg htie, if_pos hen, hcer, hcer2]
        · rcases hdet : checkForDeterministicRelease vesID fusion.numActiveSites e active'
            with _ | rel0
          · have hres : extractLoop mexp model fusion maxIter vesID draws1 (e :: rest)
                active pos
                = extractLoop mexp model fusion maxIter vesID draws1 rest active' pos := by
              simp only [extractLoop, hap, if_neg htie, if_neg hen, hdet]
            simp only [extractLoop, hap, if_neg htie, if_neg hen, hdet]
            exact ih active' pos fun j h1 h2 => hag j h1 (by rw [hres]; exact h2)
          · simp only [extractLoop, hap, if_neg htie, if_neg hen, hdet]

lemma extractReleaseEvents_mono (mexp : Int → Q) (evts : List ActEvent) (model : SimModel)
    (fusion : FusionModel) (maxIter : Nat) (vesID : String) (draws : Nat → Q) (pos : Nat) :
    pos ≤ (extractReleaseEvents mexp evts model fusion maxIter vesID draws pos).2 :=
  extractLoop_mono mexp model fusion maxIter vesID draws (sortByIter evts) ∅ pos

lemma extractReleaseEvents_congr (mexp : Int → Q) (evts : List ActEvent) (model : SimModel)
    (fusion : FusionModel) (maxIter : Nat) (vesID : String) (draws1 draws2 : Nat → Q)
    (pos : Nat)
    (hag : ∀ j, pos ≤ j →
      j < (extractReleaseEvents mexp evts model fusion maxIter vesID draws1 pos).2 →
      draws1 j = draws2 j) :
    extractReleaseEvents mexp evts model fusion maxIter vesID draws2 pos
      = extractReleaseEvents mexp evts model fusion maxIter vesID draws1 pos :=
  extractLoop_congr mexp model fusion maxIter vesID draws1 draws2 (sortByIter evts) ∅ pos hag

lemma analyzeLoop_mono (mexp : Int → Q) (data : MCellData) (m : SimModel)
    (fusion : FusionModel) (draws : Nat → Q) (seed : Int) :
    ∀ (ves : List String) (pos : Nat),
      pos ≤ (analyzeLoop mexp data m fusion draws seed ves pos).2 := by
  intro ves
  induction ves with
  | nil => intro pos; exact le_refl pos
  | cons v rest ih =>
    intro pos
    rcases hx : extractActivationEvents data m fusion seed v with er | evts
    · simp only [analyzeLoop, hx]
      exact le_refl pos
    · by_cases hemp : evts.isEmpty = true
      · simp only [analyzeLoop, hx, if_pos hemp]
        exact ih pos
      · rcases hrel : extractReleaseEvents mexp evts m fusion data.blockSize v draws pos
          with ⟨r, pos1⟩
        have hp1 : pos ≤ pos1 := by
          have h0 := extractReleaseEvents_mono mexp evts m fusion data.blockSize v draws pos
          rw [hrel] at h0
          exact h0
        rcases r with er | orel
        · simp only [analyzeLoop, hx, if_neg hemp, hrel]
          exact hp1
        · rcases hloop : analyzeLoop mexp data m fusion draws seed rest pos1 with ⟨res2, posF⟩
          have hp2 : pos1 ≤ posF := by
            have h0 := ih pos1
            rw [hloop] at h0
            exact h0
          rcases res2 with er2 | rels
          · simp only [analyzeLoop, hx, if_neg hemp, hrel, hloop]
            exact le_trans hp1 hp2
          · simp only [analyzeLoop, hx, if_neg hemp, hrel, hloop]
            exact le_trans hp1 hp2

lemma analyzeLoop_congr (mexp : Int → Q) (data : MCellData) (m : SimModel)
    (fusion : FusionModel) (seed : Int) (draws1 draws2 : Nat → Q) :
    ∀ (ves : List String) (pos : Nat),
      (∀ j, pos ≤ j →
        j < (analyzeLoop mexp data m fusion draws1 seed ves pos).2 →
        draws1 j = draws2 j) →
      analyzeLoop mexp data m fusion draws2 seed ves pos
        = analyzeLoop mexp data m fusion draws1 seed ves pos := by
  intro ves
  induction ves with
  | nil => intro pos _; rfl
  | cons v rest ih =>
    intro pos hag
    rcases hx : extractActivationEvents data m fusion seed v with er | evts
    · simp only [analyzeLoop, hx]
    · by_cases hemp : evts.isEmpty = true
      · have hres : analyzeLoop mexp data m fusion draws1 seed (v :: rest) pos
            = analyzeLoop mexp data m fusion draws1 seed rest pos := by
          simp only [analyzeLoop, hx, if_pos hemp]
        simp only [analyzeLoop, hx, if_pos hemp]
        exact ih pos fun j h1 h2 => hag j h1 (by rw [hres]; exact h2)
      · rcases hrel : extractReleaseEvents mexp evts m fusion data.blockSize v draws1 pos
          with ⟨r, pos1⟩
        have hp1 : pos ≤ pos1 := by
          have h0 := extractReleaseEvents_mono mexp evts m fusion data.blockSize v draws1 pos
          rw [hrel] at h0
          exact h0
        rcases r with er | orel
        · have hres : analyzeLoop mexp data m fusion draws1 seed (v :: rest) pos
              = (Except.error er, pos1) := by
            simp only [analyzeLoop, hx, if_neg hemp, hrel]
          have hrel2 : extractReleaseEvents mexp evts m fusion data.blockSize v draws2 pos
              = (Except.error er, pos1) := by
            rw [extractReleaseEvents_congr mexp evts m fusion data.blockSize v draws1 draws2
              pos (fun j h1 h2 => hag j h1 (by rw [hres]; rw [hrel] at h2; exact h2))]
            exact hrel
          simp only [analyzeLoop, hx, if_neg hemp, hrel, hrel2]
        · rcases hloop : analyzeLoop mexp data m fusion draws1 seed rest pos1
            with ⟨res2, posF⟩
          have hp2 : pos1 ≤ posF := by
            have h0 := analyzeLoop_mono mexp data m fusion draws1 seed rest pos1
            rw [hloop] at h0
            exact h0
          have hres : (analyzeLoop mexp data m fusion draws1 seed (v :: rest) pos).2
              = posF := by
            rcases res2 with er2 | rels
            · simp only [analyzeLoop, hx, if_neg hemp, hrel, hloop]
            · simp only [analyzeLoop, hx, if_neg hemp, hrel, hloop]
          have hrel2 : extractReleaseEvents mexp evts m fusion data.blockSize v draws2 pos
              = (Except.ok orel, pos1) := by
            rw [extractReleaseEvents_congr mexp evts m fusion data.blockSize v draws1 draws2
              pos (fun j h1 h2 => hag j h1 (by
                rw [hrel] at h2
                rw [hres]
                exact lt_of_lt_of_le h2 hp2))]
            exact hrel
          have hloop2 : analyzeLoop mexp data m fusion draws2 seed rest pos1
              = (res2, posF) := by
            rw [ih pos1 fun j h1 h2 => hag j (le_trans hp1 h1) (by
              rw [hloop] at h2
              rw [hres]
              exact h2)]
            exact hloop
          simp only [analyzeLoop, hx, if_neg hemp, hrel, hrel2, hloop, hloop2]

/-- C3 (amended): the analysis of one archive is a pure function of the
injected sample stream: the generator position never rewinds, and any two
streams that agree on the window of positions the run consumes produce
the identical analysis result and final position.  Seed-for-seed
reproducibility therefore holds exactly when the generator is injected
and positioned per run — which `runJob` does not do: it seeds one
generator per worker from the wall clock and shares it across every
archive the worker processes (see the C3 counterexample). -/
theorem c3_stream_prefix_determinism (mexp : Int → Q) (data : MCellData) (m : SimModel)
    (fusion : FusionModel) (seed : Int) (pos : Nat) (draws1 draws2 : Nat → Q)
    (hag : ∀ j, pos ≤ j → j < (analyze mexp data m fusion draws1 pos seed).2 →
      draws1 j = draws2 j) :
    pos ≤ (analyze mexp data m fusion draws1 pos seed).2 ∧
    analyze mexp data m fusion draws2 pos seed
      = analyze mexp data m fusion draws1 pos seed := by
  rcases hal : analyzeLoop mexp data m fusion draws1 seed m.vesicleIDs pos with ⟨res, pos1⟩
  have hp : pos ≤ pos1 := by
    have h0 := analyzeLoop_mono mexp data m fusion draws1 seed m.vesicleIDs pos
    rw [hal] at h0
    exact h0
  have h2 : (analyze mexp data m fusion draws1 pos seed).2 = pos1 := by
    rcases res with er | rels
    · simp only [analyze, hal]
    · rcases hasm : assembleReleaseMsgs data m seed rels with er2 | msgs
      · simp only [analyze, hal, hasm]
      · simp only [analyze, hal, hasm]
  have hal2 : analyzeLoop mexp data m fusion draws2 seed m.vesicleIDs pos = (res, pos1) := by
    rw [analyzeLoop_congr mexp data m fusion seed draws1 draws2 m.vesicleIDs pos
      (fun j h1 hjlt => hag j h1 (by rw [h2]; rw [hal] at hjlt; exact hjlt))]
    exact hal
  refine ⟨by rw [h2]; exact hp, ?_⟩
  simp only [analyze, hal, hal2]

/-- Witness for the C3 theorem: the concrete C3 run consumes exactly the
draw at position 0, so a second stream agreeing with `c3draws` only there
— and differing everywhere else — reproduces the identical analysis. -/
theorem c3_stream_prefix_determinism_witness :
    (0 ≤ (analyze c3mexp c3Archive c3Model c3Fusion c3draws 0 1).2 ∧
      analyze c3mexp c3Archive c3Model c3Fusion c3drawsAlt 0 1
        = analyze c3mexp c3Archive c3Model c3Fusion c3draws 0 1) ∧
    c3drawsAlt 1 ≠ c3draws 1 :=
  ⟨c3_stream_prefix_determinism c3mexp c3Archive c3Model c3Fusion 1 0 c3draws c3drawsAlt
      (by
        intro j h0 hj
        have hend : (analyze c3mexp c3Archive c3Model c3Fusion c3draws 0 1).2 = 1 := by
          decide
        rw [hend] at hj
        have hj0 : j = 0 := Nat.lt_one_iff.mp hj
        subst hj0
        rfl),
    by decide⟩

end Mbdr
